import Mathlib

/-!
Verification model of the `prolog_llm_router` repository (`rust_sketch` core).

The Rust source is shallowly embedded: pure functions become Lean functions,
external collaborators (the SWI/Scryer engines, the Apple integrations, the
HTTP tool executor, the LLM client and the current local date) become explicit
parameters, and `serde_json::Value` becomes the `Json` inductive below, with
objects kept as key-sorted association lists to mirror `serde_json`'s default
`BTreeMap` object representation.
-/

namespace RouterModel

/-- Intent types supported by the router (`IntentType`, main.rs). -/
inductive IntentType
| summarize
| find
| draft
| remind
| weather
| unknown
deriving DecidableEq, Repr

/-- `IntentType::as_atom` (main.rs): conversion to the Prolog atom string. -/
def IntentType.as_atom : IntentType → String
| .summarize => "summarize"
| .find => "find"
| .draft => "draft"
| .remind => "remind"
| .weather => "weather"
| .unknown => "unknown"

/-- `SourcePreference` (main.rs); `Either` is the serde default. -/
inductive SourcePreference
| notes
| files
| either
deriving DecidableEq, Repr

/-- `WeatherQueryType` (main.rs). -/
inductive WeatherQueryType
| current
| forecast
| assessment
deriving DecidableEq, Repr

/-- The lowercase token the router code emits for a `WeatherQueryType`
(the common `match` arm used in both encoders and in the stub router). -/
def WeatherQueryType.token : WeatherQueryType → String
| .current => "current"
| .forecast => "forecast"
| .assessment => "assessment"

/-- `Entities` (main.rs): all fields optional, absence means not extracted. -/
structure Entities where
  topic : Option String := none
  query : Option String := none
  location : Option String := none
  date : Option String := none
  date_end : Option String := none
  recipient : Option String := none
  priority : Option String := none
  weather_query : Option WeatherQueryType := none
deriving Repr

/-- `Constraints` (main.rs) with its `Default` impl. -/
structure Constraints where
  source_preference : SourcePreference := .either
  safety : String := "normal"
deriving Repr

/-- `IntentPayload` (main.rs). -/
structure IntentPayload where
  intent : IntentType
  entities : Entities := {}
  constraints : Constraints := {}
deriving Repr

/-- Model of `serde_json::Value`.  Numbers are modelled as rationals (the
claims under verification never exercise numeric edge cases of `f64`/`i64`);
objects are association lists kept sorted by key, mirroring the default
`BTreeMap<String, Value>` representation of `serde_json`. -/
inductive Json
| null
| bool (b : Bool)
| num (n : Rat)
| str (s : String)
| arr (elems : List Json)
| obj (entries : List (String × Json))
deriving Repr

/-- Lexicographic key order on strings as lists of code points.  Rust's
`String: Ord` compares UTF-8 bytes, and UTF-8 byte order coincides with
code-point order, so this is the order `BTreeMap<String, _>` keys follow. -/
def keyLt : List Char → List Char → Bool
| [], [] => false
| [], _ :: _ => true
| _ :: _, [] => false
| c :: cs, d :: ds => if c < d then true else if d < c then false else keyLt cs ds

/-- Sorted-unique insertion into an object entry list: the model of
`BTreeMap::insert` used by `serde_json` objects. -/
def Json.insertSorted (k : String) (v : Json) : List (String × Json) → List (String × Json)
| [] => [(k, v)]
| (k1, v1) :: rest =>
  if keyLt k.data k1.data then (k, v) :: (k1, v1) :: rest
  else if k = k1 then (k, v) :: rest
  else (k1, v1) :: Json.insertSorted k v rest

/-- Model of the `serde_json::json!` object literal: entries are inserted
left to right into an empty `BTreeMap`. -/
def Json.objOf (pairs : List (String × Json)) : Json :=
  .obj (pairs.foldl (fun acc kv => Json.insertSorted kv.1 kv.2 acc) [])

/-- Key lookup on an object value (any other value has no keys, as with
`Value::get` in `serde_json`). -/
def Json.lookup : Json → String → Option Json
| .obj entries, k => entries.lookup k
| _, _ => none

/-- Model of `value[key] = v` on a `serde_json` object (`BTreeMap::insert`);
the source only ever applies it to objects. -/
def Json.setKey : Json → String → Json → Json
| .obj entries, k, v => .obj (Json.insertSorted k v entries)
| j, _, _ => j

/-- `Decision` (main.rs): the tagged routing result. -/
inductive Decision
| route (tool : String) (args : Json)
| needInfo (question : String)
| reject (reason : String)
deriving Repr

/-- `prolog_decide_stub` (main.rs / crates/core/src/router.rs): the Native
decision strategy.  `apple_configured` stands for the external predicate
`apple_weather::is_configured()` (an environment probe); the source's
`verbose` flag only emits a debug log line and does not affect the result,
so it is dropped here. -/
def prolog_decide_stub (apple_configured : Bool) (payload : IntentPayload) : Decision :=
  match payload.intent with
  | .summarize | .find =>
    let query_text := (payload.entities.topic.orElse fun _ => payload.entities.query).getD ""
    if query_text = "" then
      .needInfo ("What should I " ++ payload.intent.as_atom ++ "?")
    else
      let tool := match payload.constraints.source_preference with
        | .notes => "search_notes"
        | _ => "search_files"
      .route tool (Json.objOf [("query", .str query_text), ("scope", .str "user")])
  | .weather =>
    match payload.entities.location with
    | none => .needInfo "What location should I use?"
    | some location =>
      let tool := if apple_configured then "get_apple_weather" else "get_weather"
      let args := Json.objOf [("location", .str location)]
      let args := match payload.entities.date with
        | some d => args.setKey "date" (.str d)
        | none => args
      let args := match payload.entities.date_end with
        | some de => args.setKey "date_end" (.str de)
        | none => args
      let args := match payload.entities.weather_query with
        | some wq => args.setKey "weather_query" (.str wq.token)
        | none => args
      .route tool args
  | .draft =>
    match payload.entities.recipient with
    | none => .needInfo "Who should I email?"
    | some recipient =>
      let subject := payload.entities.topic.getD "(no subject)"
      .route "draft_email"
        (Json.objOf [("to", .str recipient), ("subject", .str subject), ("body", .str "")])
  | .remind =>
    match payload.entities.topic with
    | none => .needInfo "What should I remind you about?"
    | some title =>
      match payload.entities.date with
      | none => .needInfo "When is this due? (e.g., tomorrow, next Friday, 2026-02-01)"
      | some due =>
        let priority := payload.entities.priority.getD "normal"
        .route "create_todo"
          (Json.objOf [("title", .str title), ("due", .str due), ("priority", .str priority)])
  | .unknown => .reject "No matching route or follow-up found."

/-- Projection of a `Decision`'s routed tool, used to state routing claims. -/
def Decision.routeTool : Decision → Option String
| .route t _ => some t
| _ => none

/-- Projection of a `Decision`'s routed argument object. -/
def Decision.routeArgs : Decision → Option Json
| .route _ a => some a
| _ => none

/-- C2: for intent Summarize or Find, the Native decision takes topic, else
query, else empty; an empty query text yields `NeedInfo("What should I
<intent>?")`, otherwise a Route to `search_notes` when the source preference
is Notes and `search_files` otherwise with args exactly
`{query: <text>, scope: "user"}`; in particular the Summarize/"machine
learning"/Notes payload routes to `search_notes`. -/
theorem c2_summarize_find_routing (apple : Bool) (p : IntentPayload)
    (h : p.intent = .summarize ∨ p.intent = .find) :
    (((p.entities.topic.orElse fun _ => p.entities.query).getD "") = "" →
      prolog_decide_stub apple p = .needInfo ("What should I " ++ p.intent.as_atom ++ "?")) ∧
    (((p.entities.topic.orElse fun _ => p.entities.query).getD "") ≠ "" →
      prolog_decide_stub apple p =
        .route (if p.constraints.source_preference = .notes then "search_notes" else "search_files")
          (Json.obj [("query", Json.str ((p.entities.topic.orElse fun _ => p.entities.query).getD "")),
                     ("scope", Json.str "user")])) ∧
    prolog_decide_stub apple
        ⟨.summarize, { topic := some "machine learning" }, { source_preference := .notes }⟩ =
      .route "search_notes" (Json.obj [("query", .str "machine learning"), ("scope", .str "user")]) := by
  refine ⟨?_, ?_, ?_⟩
  · intro hq
    rcases h with h | h <;> simp [prolog_decide_stub, h, hq]
  · intro hq
    rcases h with h | h <;>
      cases hsp : p.constraints.source_preference <;>
        simp [prolog_decide_stub, h, hq, hsp, Json.objOf, Json.insertSorted] <;> decide
  · rfl

/-- C2 witness: the theorem applied to the concrete Summarize payload from
the spec's routing scenario. -/
theorem c2_summarize_find_routing_witness :
    ((IntentPayload.mk .summarize { topic := some "machine learning" }
        { source_preference := .notes }).intent = .summarize ∨
      (IntentPayload.mk .summarize { topic := some "machine learning" }
        { source_preference := .notes }).intent = .find) ∧
    prolog_decide_stub false
        ⟨.summarize, { topic := some "machine learning" }, { source_preference := .notes }⟩ =
      .route "search_notes" (Json.obj [("query", .str "machine learning"), ("scope", .str "user")]) :=
  ⟨Or.inl rfl,
    (c2_summarize_find_routing false
      ⟨.summarize, { topic := some "machine learning" }, { source_preference := .notes }⟩
      (Or.inl rfl)).2.2⟩

/-- C3: for intent Weather, a missing location yields
`NeedInfo("What location should I use?")`; otherwise a Route whose args
always carry `location` and carry `date`, `date_end`, `weather_query` exactly
when present, routed to the Apple weather tool when the premium provider is
configured and the generic weather tool otherwise; the no-location payload
with `date: "tomorrow"` yields a NeedInfo whose question contains
"location". -/
theorem c3_weather_routing (apple : Bool) (p : IntentPayload)
    (h : p.intent = .weather) :
    (p.entities.location = none →
      prolog_decide_stub apple p = .needInfo "What location should I use?") ∧
    (∀ loc, p.entities.location = some loc →
      (prolog_decide_stub apple p).routeTool =
        some (if apple then "get_apple_weather" else "get_weather") ∧
      ((prolog_decide_stub apple p).routeArgs.bind (·.lookup "location")) = some (.str loc) ∧
      ((prolog_decide_stub apple p).routeArgs.bind (·.lookup "date")) =
        p.entities.date.map Json.str ∧
      ((prolog_decide_stub apple p).routeArgs.bind (·.lookup "date_end")) =
        p.entities.date_end.map Json.str ∧
      ((prolog_decide_stub apple p).routeArgs.bind (·.lookup "weather_query")) =
        p.entities.weather_query.map (fun wq => Json.str wq.token)) ∧
    (prolog_decide_stub apple ⟨.weather, { date := some "tomorrow" }, {}⟩ =
        .needInfo "What location should I use?" ∧
      ∃ a b : String, "What location should I use?" = a ++ "location" ++ b) := by
  refine ⟨?_, ?_, ?_, "What ", " should I use?", rfl⟩
  · intro hloc
    simp [prolog_decide_stub, h, hloc]
  · intro loc hloc
    cases hd : p.entities.date <;> cases hde : p.entities.date_end <;>
      cases hwq : p.entities.weather_query <;>
        simp [prolog_decide_stub, h, hloc, hd, hde, hwq, Json.objOf, Json.insertSorted,
          Json.setKey, Json.lookup, Decision.routeTool, Decision.routeArgs, List.lookup]
  · rfl

/-- C3 witness: the theorem applied to a concrete Weather payload with a
location, a date and a weather query type, with the premium provider
unconfigured. -/
theorem c3_weather_routing_witness :
    ((IntentPayload.mk .weather
        { location := some "Seattle", date := some "2026-01-27",
          weather_query := some .forecast } {}).intent = IntentType.weather) ∧
    ((prolog_decide_stub false ⟨.weather,
        { location := some "Seattle", date := some "2026-01-27",
          weather_query := some .forecast }, {}⟩).routeTool = some "get_weather" ∧
      ((prolog_decide_stub false ⟨.weather,
        { location := some "Seattle", date := some "2026-01-27",
          weather_query := some .forecast }, {}⟩).routeArgs.bind (·.lookup "location")) =
        some (.str "Seattle")) :=
  ⟨rfl, by
    have hm := (c3_weather_routing false ⟨.weather,
      { location := some "Seattle", date := some "2026-01-27",
        weather_query := some .forecast }, {}⟩ rfl).2.1 "Seattle" rfl
    exact ⟨by simpa using hm.1, by simpa using hm.2.1⟩⟩

/-- A single-quote character, used by the list (atom) encoding. -/
def squote : String := String.singleton '\''

/-- Replace every occurrence of the character `c` by the character list `r`:
the model of Rust's `str::replace` with a one-character pattern, which the
two escaping helpers use. -/
def replaceChar (c : Char) (r : List Char) (l : List Char) : List Char :=
  l.flatMap fun a => if a = c then r else [a]

/-- `escape_prolog_string` (main.rs): double backslashes, then escape double
quotes. -/
def escape_prolog_string (s : String) : String :=
  String.mk (replaceChar '"' ['\\', '"'] (replaceChar '\\' ['\\', '\\'] s.data))

/-- `escape_prolog_atom` (main.rs): double backslashes, then escape single
quotes. -/
def escape_prolog_atom (s : String) : String :=
  String.mk (replaceChar '\'' ['\\', '\''] (replaceChar '\\' ['\\', '\\'] s.data))

/-- One optional field of the dict encoding: the part string pushed by the
corresponding `if let Some(ref v)` arm of `ToPrologDict for Entities`. -/
def dictField (k : String) (o : Option String) : List String :=
  (o.map fun v => k ++ ":\"" ++ escape_prolog_string v ++ "\"").toList

/-- The part list built by `ToPrologDict for Entities` (main.rs): one part
per `Some` field, in declaration order; `weather_query` is rendered from its
enumeration token without the escaping helper. -/
def dictParts (e : Entities) : List String :=
  dictField "topic" e.topic ++ dictField "query" e.query ++
    dictField "location" e.location ++ dictField "date" e.date ++
    dictField "date_end" e.date_end ++ dictField "recipient" e.recipient ++
    dictField "priority" e.priority ++
    (e.weather_query.map fun wq => "weather_query:\"" ++ wq.token ++ "\"").toList

/-- `Entities::to_prolog_dict` (main.rs): `_{parts, ...}`. -/
def Entities.to_prolog_dict (e : Entities) : String :=
  "_\x7b" ++ String.intercalate ", " (dictParts e) ++ "\x7d"

/-- One optional field of the list encoding: the part string pushed by the
corresponding `if let Some(ref v)` arm of `ToPrologList for Entities`. -/
def listField (k : String) (o : Option String) : List String :=
  (o.map fun v => k ++ "-" ++ squote ++ escape_prolog_atom v ++ squote).toList

/-- The part list built by `ToPrologList for Entities` (main.rs):
`key-'value'` pairs for `Some` fields; `weather_query` is emitted as a bare
unquoted atom. -/
def listParts (e : Entities) : List String :=
  listField "topic" e.topic ++ listField "query" e.query ++
    listField "location" e.location ++ listField "date" e.date ++
    listField "date_end" e.date_end ++ listField "recipient" e.recipient ++
    listField "priority" e.priority ++
    (e.weather_query.map fun wq => "weather_query-" ++ wq.token).toList

/-- `Entities::to_prolog_list` (main.rs): `[parts, ...]`. -/
def Entities.to_prolog_list (e : Entities) : String :=
  "[" ++ String.intercalate ", " (listParts e) ++ "]"

/-- The token emitted for a `SourcePreference` by both constraint encoders. -/
def SourcePreference.token : SourcePreference → String
| .notes => "notes"
| .files => "files"
| .either => "either"

/-- `Constraints::to_prolog_dict` (main.rs). -/
def Constraints.to_prolog_dict (c : Constraints) : String :=
  "_\x7bsource_preference:\"" ++ c.source_preference.token ++ "\", safety:\"" ++
    escape_prolog_string c.safety ++ "\"\x7d"

/-- `Constraints::to_prolog_list` (main.rs). -/
def Constraints.to_prolog_list (c : Constraints) : String :=
  "[source_preference-" ++ c.source_preference.token ++ ", safety-" ++ squote ++
    escape_prolog_atom c.safety ++ squote ++ "]"

/-- Backslash un-escaping: drops one level of backslash escapes.  Both
encodings' escape conventions are inverted by this single function, which is
what "equal string content after un-escaping" is measured with. -/
def unescapeChars : List Char → List Char
| [] => []
| [c] => [c]
| a :: b :: rest =>
  if a = '\\' then b :: unescapeChars rest else a :: unescapeChars (b :: rest)

/-- The fields of an `Entities` value that are `Some`, as (key, raw content)
pairs in declaration order, `weather_query` contributing its token.  This is
the specification-side description both encodings are compared against. -/
def pairField (k : String) (o : Option String) : List (String × String) :=
  (o.map fun v => (k, v)).toList

/-- Specification-side list of the populated fields of an `Entities`. -/
def entityPairs (e : Entities) : List (String × String) :=
  pairField "topic" e.topic ++ pairField "query" e.query ++
    pairField "location" e.location ++ pairField "date" e.date ++
    pairField "date_end" e.date_end ++ pairField "recipient" e.recipient ++
    pairField "priority" e.priority ++
    (e.weather_query.map fun wq => ("weather_query", wq.token)).toList

/-- How the dict encoding renders one (key, content) pair. -/
def dictRender (kv : String × String) : String :=
  kv.1 ++ ":\"" ++ escape_prolog_string kv.2 ++ "\""

/-- How the list encoding renders one (key, content) pair (`weather_query`
as a bare atom). -/
def listRender (kv : String × String) : String :=
  if kv.1 = "weather_query" then kv.1 ++ "-" ++ kv.2
  else kv.1 ++ "-" ++ squote ++ escape_prolog_atom kv.2 ++ squote

theorem unescapeChars_cons_ne (c : Char) (rest : List Char) (hc : c ≠ '\\') :
    unescapeChars (c :: rest) = c :: unescapeChars rest := by
  cases rest <;> simp [unescapeChars, hc]

theorem unescape_escape (q : Char) (hq : q ≠ '\\') (l : List Char) :
    unescapeChars (replaceChar q ['\\', q] (replaceChar '\\' ['\\', '\\'] l)) = l := by
  induction l with
  | nil => rfl
  | cons c t ih =>
    by_cases hc : c = '\\'
    · subst hc
      have h2 : replaceChar q ['\\', q] (replaceChar '\\' ['\\', '\\'] ('\\' :: t)) =
          '\\' :: '\\' :: replaceChar q ['\\', q] (replaceChar '\\' ['\\', '\\'] t) := by
        simp [replaceChar, Ne.symm hq]
      rw [h2]
      simp [unescapeChars, ih]
    · by_cases hcq : c = q
      · subst hcq
        have h2 : replaceChar c ['\\', c] (replaceChar '\\' ['\\', '\\'] (c :: t)) =
            '\\' :: c :: replaceChar c ['\\', c] (replaceChar '\\' ['\\', '\\'] t) := by
          simp [replaceChar, hc]
        rw [h2]
        simp [unescapeChars, ih]
      · have h2 : replaceChar q ['\\', q] (replaceChar '\\' ['\\', '\\'] (c :: t)) =
            c :: replaceChar q ['\\', q] (replaceChar '\\' ['\\', '\\'] t) := by
          simp [replaceChar, hc, hcq]
        rw [h2, unescapeChars_cons_ne c _ hc, ih]


theorem dictField_eq (k : String) (o : Option String) :
    dictField k o = (pairField k o).map dictRender := by
  cases o <;> rfl

theorem listField_eq (k : String) (o : Option String) (hk : ¬ k = "weather_query") :
    listField k o = (pairField k o).map listRender := by
  cases o <;> simp [listField, pairField, listRender, hk]

theorem dictWeather_eq (w : Option WeatherQueryType) :
    (w.map fun wq => "weather_query:\"" ++ wq.token ++ "\"").toList =
      ((w.map fun wq => ("weather_query", wq.token)).toList).map dictRender := by
  cases w with
  | none => rfl
  | some wq => cases wq <;> rfl

theorem listWeather_eq (w : Option WeatherQueryType) :
    (w.map fun wq => "weather_query-" ++ wq.token).toList =
      ((w.map fun wq => ("weather_query", wq.token)).toList).map listRender := by
  cases w with
  | none => rfl
  | some wq => cases wq <;> rfl

/-- C6: both term encodings include exactly the `Some` fields of an
`Entities` value (each encoding's part list is the render of the same
populated-field list, so a `None` field contributes no part at all), and
every included field carries the same content once the encoding's escaping
is undone (both escapes are inverted by `unescapeChars`, recovering the raw
value); concretely, encoding `topic:"AI notes"` dict-form contains
`topic:"AI notes"` and no `location` key, and list-form contains
`topic-'AI notes'` and no `location` key. -/
theorem c6_encoder_equivalence :
    (∀ v : String, unescapeChars (escape_prolog_string v).data = v.data ∧
        unescapeChars (escape_prolog_atom v).data = v.data) ∧
    (∀ e : Entities, dictParts e = (entityPairs e).map dictRender ∧
        listParts e = (entityPairs e).map listRender) ∧
    ("topic:\"AI notes\"").data <:+: (Entities.to_prolog_dict { topic := some "AI notes" }).data ∧
    ¬ (("location").data <:+: (Entities.to_prolog_dict { topic := some "AI notes" }).data) ∧
    ("topic-" ++ squote ++ "AI notes" ++ squote).data <:+:
      (Entities.to_prolog_list { topic := some "AI notes" }).data ∧
    ¬ (("location").data <:+: (Entities.to_prolog_list { topic := some "AI notes" }).data) := by
  refine ⟨?_, ?_, ?_, ?_, ?_, ?_⟩
  · intro v
    exact ⟨unescape_escape '"' (by decide) v.data, unescape_escape '\'' (by decide) v.data⟩
  · intro e
    constructor
    · simp only [dictParts, entityPairs, List.map_append, dictField_eq, dictWeather_eq]
    · simp only [listParts, entityPairs, List.map_append, listWeather_eq]
      rw [listField_eq "topic" _ (by decide), listField_eq "query" _ (by decide),
        listField_eq "location" _ (by decide), listField_eq "date" _ (by decide),
        listField_eq "date_end" _ (by decide), listField_eq "recipient" _ (by decide),
        listField_eq "priority" _ (by decide)]
  · decide
  · decide
  · decide
  · decide

/-- ASCII lowercasing at the code-point level: the model of Rust's
`str::to_lowercase` as exercised here (all inputs of interest are ASCII). -/
def strToLower (s : String) : String := ⟨s.data.map Char.toLower⟩

/-- Whitespace trimming at the code-point level: the model of `str::trim`
(ASCII whitespace; the claims never exercise exotic Unicode spacing). -/
def strTrim (s : String) : String :=
  ⟨((s.data.dropWhile Char.isWhitespace).reverse.dropWhile Char.isWhitespace).reverse⟩

/-- Model of `chrono::NaiveDate`: a signed count of days since 1970-01-01
(which is a Thursday).  `Days::new` addition/subtraction is day arithmetic. -/
structure NaiveDate where
  days : Int
deriving DecidableEq, Repr

/-- `date + Days::new(n)` / `date - Days::new(n)`. -/
def NaiveDate.addDays (d : NaiveDate) (n : Int) : NaiveDate := ⟨d.days + n⟩

/-- `chrono::Weekday`. -/
inductive Weekday
| mon
| tue
| wed
| thu
| fri
| sat
| sun
deriving DecidableEq, Repr

/-- `Weekday::num_days_from_monday` (0 for Monday .. 6 for Sunday). -/
def Weekday.num_days_from_monday : Weekday → Int
| .mon => 0
| .tue => 1
| .wed => 2
| .thu => 3
| .fri => 4
| .sat => 5
| .sun => 6

/-- Weekday from its Monday offset. -/
def weekdayOfNat : Nat → Weekday
| 0 => .mon
| 1 => .tue
| 2 => .wed
| 3 => .thu
| 4 => .fri
| 5 => .sat
| _ => .sun

/-- `NaiveDate::weekday`: 1970-01-01 is a Thursday, 3 days from Monday. -/
def NaiveDate.numDaysFromMonday (d : NaiveDate) : Int := (d.days + 3) % 7

/-- `NaiveDate::weekday` as a `Weekday` value. -/
def NaiveDate.weekday (d : NaiveDate) : Weekday :=
  weekdayOfNat (((d.days + 3) % 7).toNat)

/-- Zero-padded two-digit rendering (the `%m`/`%d` fields of `%Y-%m-%d`). -/
def formatNat2 (n : Nat) : String :=
  if n < 10 then "0" ++ toString n else toString n

/-- Zero-padded four-digit rendering (the `%Y` field for common-era years). -/
def formatNat4 (n : Nat) : String :=
  if n < 10 then "000" ++ toString n
  else if n < 100 then "00" ++ toString n
  else if n < 1000 then "0" ++ toString n
  else toString n

/-- Proleptic-Gregorian (year, month, day) of a day count since 1970-01-01:
the standard civil-from-days conversion used to model `chrono`'s
`format("%Y-%m-%d")`. -/
def civilFromDays (z0 : Int) : Int × Nat × Nat :=
  let z := z0 + 719468
  let era : Int := z.fdiv 146097
  let doe : Nat := (z - era * 146097).toNat
  let yoe : Nat := (doe - doe / 1460 + doe / 36524 - doe / 146096) / 365
  let y : Int := yoe + era * 400
  let doy : Nat := doe - (365 * yoe + yoe / 4 - yoe / 100)
  let mp : Nat := (5 * doy + 2) / 153
  let d : Nat := doy - (153 * mp + 2) / 5 + 1
  let m : Nat := if mp < 10 then mp + 3 else mp - 9
  (if m ≤ 2 then y + 1 else y, m, d)

/-- `format_date` (main.rs): render a date as `YYYY-MM-DD`.  Negative years
do not occur in any reachable use. -/
def format_date (d : NaiveDate) : String :=
  let c := civilFromDays d.days
  formatNat4 c.1.toNat ++ "-" ++ formatNat2 c.2.1 ++ "-" ++ formatNat2 c.2.2

/-- `parse_weekday` (main.rs): weekday names and abbreviations, matched on
the lowercased input. -/
def parse_weekday (s : String) : Option Weekday :=
  let t := strToLower s
  if t = "monday" ∨ t = "mon" then some .mon
  else if t = "tuesday" ∨ t = "tue" ∨ t = "tues" then some .tue
  else if t = "wednesday" ∨ t = "wed" then some .wed
  else if t = "thursday" ∨ t = "thu" ∨ t = "thurs" then some .thu
  else if t = "friday" ∨ t = "fri" then some .fri
  else if t = "saturday" ∨ t = "sat" then some .sat
  else if t = "sunday" ∨ t = "sun" then some .sun
  else none

/-- `next_weekday` (main.rs): next occurrence of a weekday, 1-7 days ahead
(same weekday means a full week ahead).  The `%` is on a value that is
already nonnegative, so Rust's truncating remainder agrees with `emod`. -/
def next_weekday (fromd : NaiveDate) (target : Weekday) : NaiveDate :=
  let days_ahead :=
    (target.num_days_from_monday - fromd.numDaysFromMonday + 7) % 7
  let days_ahead := if days_ahead = 0 then 7 else days_ahead
  ⟨fromd.days + days_ahead⟩

/-- The `strip_prefix("next ")`-and-parse step of `resolve_relative_date`. -/
def nextPrefixTarget (trimmed : String) : Option Weekday :=
  match trimmed.data with
  | 'n' :: 'e' :: 'x' :: 't' :: ' ' :: rest => parse_weekday (strTrim ⟨rest⟩)
  | _ => none

/-- `resolve_relative_date` (main.rs): resolve relative date strings against
the current date (`today` stands for `Local::now().date_naive()`). -/
def resolve_relative_date (today : NaiveDate) (date_str : String) : String :=
  let trimmed := strTrim (strToLower date_str)
  if trimmed = "today" then format_date today
  else if trimmed = "tomorrow" then format_date (today.addDays 1)
  else if trimmed = "yesterday" then format_date (today.addDays (-1))
  else
    match nextPrefixTarget trimmed with
    | some target => format_date (next_weekday today target)
    | none =>
      match parse_weekday trimmed with
      | some target => format_date (next_weekday today target)
      | none => date_str

/-- Model of `str::parse::<u64>`: optional leading `+`, one or more ASCII
digits, value within `u64` range. -/
def parseU64 (s : String) : Option Nat :=
  let cs := match s.data with
    | '+' :: rest => rest
    | cs => cs
  if cs.isEmpty then none
  else if cs.all Char.isDigit then
    let v := cs.foldl (fun acc c => acc * 10 + (c.toNat - '0'.toNat)) 0
    if v < 2 ^ 64 then some v else none
  else none

/-- The `strip_suffix(" days")` step of the range resolver. -/
def stripSuffixDays (rest : List Char) : Option (List Char) :=
  match rest.reverse with
  | 's' :: 'y' :: 'a' :: 'd' :: ' ' :: rem => some rem.reverse
  | _ => none

/-- After `strip_prefix("next ")` succeeded: strip ` days`, parse the middle
as `u64`; the end date is `today + (n-1)` with saturating subtraction. -/
def nextNDaysRest (today : NaiveDate) (rest : List Char) : Option (String × Option String) :=
  match stripSuffixDays rest with
  | some days_str =>
    match parseU64 (strTrim ⟨days_str⟩) with
    | some n => some (format_date today, some (format_date (today.addDays (↑(n - 1)))))
    | none => none
  | none => none

/-- The `next N days` arm of `resolve_date_range`. -/
def nextNDays (today : NaiveDate) (trimmed : String) : Option (String × Option String) :=
  match trimmed.data with
  | 'n' :: 'e' :: 'x' :: 't' :: ' ' :: rest => nextNDaysRest today rest
  | _ => none

/-- Substring containment on character lists: the model of Rust's
`str::contains` with a string pattern. -/
def containsSub (needle : List Char) : List Char → Bool
| [] => needle.isEmpty
| c :: rest => needle.isPrefixOf (c :: rest) || containsSub needle rest

/-- The `this weekend` arm of `resolve_date_range`: days until Saturday of
this week (0 when today already is Saturday).  The `%` operand is
nonnegative, so Rust's truncating remainder agrees with `emod`. -/
def weekendDus (today : NaiveDate) : Int :=
  if (Weekday.sat.num_days_from_monday - today.numDaysFromMonday + 7) % 7 = 0 ∧
      today.weekday = .sat then 0
  else if (Weekday.sat.num_days_from_monday - today.numDaysFromMonday + 7) % 7 = 0 then 7
  else (Weekday.sat.num_days_from_monday - today.numDaysFromMonday + 7) % 7

/-- Saturday through Sunday of the computed weekend. -/
def weekendRange (today : NaiveDate) : String × Option String :=
  (format_date (today.addDays (weekendDus today)),
    some (format_date ((today.addDays (weekendDus today)).addDays 1)))

/-- The body of `resolve_date_range` after the input has been lowercased and
trimmed; `date_str` is the original input, handed to the scalar resolver in
the fall-through arm exactly as in the source. -/
def rangeCore (today : NaiveDate) (trimmed : String) (date_str : String) :
    String × Option String :=
  if trimmed = "next week" then
    (format_date today, some (format_date (today.addDays 6)))
  else
    match nextNDays today trimmed with
    | some r => r
    | none =>
      if trimmed = "this weekend" then weekendRange today
      else if containsSub "forecast".data trimmed.data then
        (format_date today, some (format_date (today.addDays 6)))
      else (resolve_relative_date today date_str, none)

/-- `resolve_date_range` (main.rs): `(start, optional end)`; note the
`forecast` arm fires on a substring containment test, not on equality. -/
def resolve_date_range (today : NaiveDate) (date_str : String) : String × Option String :=
  rangeCore today (strTrim (strToLower date_str)) date_str

theorem weekdayOfNat_num (w : Weekday) :
    weekdayOfNat (w.num_days_from_monday).toNat = w := by
  cases w <;> rfl

theorem weekday_eq_iff (d : NaiveDate) (w : Weekday) :
    d.weekday = w ↔ d.numDaysFromMonday = w.num_days_from_monday := by
  unfold NaiveDate.weekday NaiveDate.numDaysFromMonday
  have h0 : 0 ≤ (d.days + 3) % 7 := Int.emod_nonneg _ (by norm_num)
  have h7 : (d.days + 3) % 7 < 7 := Int.emod_lt_of_pos _ (by norm_num)
  constructor
  · intro h
    set m : Int := (d.days + 3) % 7 with hm
    clear_value m
    interval_cases m <;> simp [weekdayOfNat] at h <;> subst h <;> decide
  · intro h
    rw [h, weekdayOfNat_num]

theorem next_weekday_spec (today : NaiveDate) (w : Weekday) :
    1 ≤ (next_weekday today w).days - today.days ∧
    (next_weekday today w).days - today.days ≤ 7 ∧
    (next_weekday today w).weekday = w ∧
    (today.weekday = w → (next_weekday today w).days - today.days = 7) := by
  have hk0 : 0 ≤ w.num_days_from_monday := by cases w <;> decide
  have hk7 : w.num_days_from_monday < 7 := by cases w <;> decide
  rw [weekday_eq_iff, weekday_eq_iff]
  rcases today with ⟨td⟩
  simp only [next_weekday, NaiveDate.numDaysFromMonday, NaiveDate.addDays]
  by_cases hz : (w.num_days_from_monday - (td + 3) % 7 + 7) % 7 = 0
  · rw [if_pos hz]
    refine ⟨by simp, by simp, ?_, fun _ => by simp⟩
    show (td + 7 + 3) % 7 = w.num_days_from_monday
    omega
  · rw [if_neg hz]
    refine ⟨by simp; omega, by simp; omega, ?_, fun hw => by simp; omega⟩
    show (td + (w.num_days_from_monday - (td + 3) % 7 + 7) % 7 + 3) % 7 =
      w.num_days_from_monday
    omega

theorem strToLower_head (t : String) (c : Char) (rest : List Char) (X : String)
    (hm : t.data = c :: rest) (he : strToLower t = X) :
    X.data.head? = some (Char.toLower c) := by
  have h2 : t.data.map Char.toLower = X.data := congrArg String.data he
  rw [hm] at h2
  rw [← h2]
  rfl

theorem nextPrefix_of_weekday (t : String) (w : Weekday)
    (h : parse_weekday t = some w) : nextPrefixTarget t = none := by
  unfold nextPrefixTarget
  split
  next rest hm =>
    exfalso
    simp only [parse_weekday] at h
    split_ifs at h with h1 h2 h3 h4 h5 h6 h7
    · rcases h1 with he | he <;> exact absurd (strToLower_head t 'n' _ _ hm he) (by decide)
    · rcases h2 with he | he | he <;> exact absurd (strToLower_head t 'n' _ _ hm he) (by decide)
    · rcases h3 with he | he <;> exact absurd (strToLower_head t 'n' _ _ hm he) (by decide)
    · rcases h4 with he | he | he <;> exact absurd (strToLower_head t 'n' _ _ hm he) (by decide)
    · rcases h5 with he | he <;> exact absurd (strToLower_head t 'n' _ _ hm he) (by decide)
    · rcases h6 with he | he <;> exact absurd (strToLower_head t 'n' _ _ hm he) (by decide)
    · rcases h7 with he | he <;> exact absurd (strToLower_head t 'n' _ _ hm he) (by decide)
  next => rfl

/-- C7: the scalar date resolver sends `today`/`tomorrow`/`yesterday` to
calendar arithmetic on the current date, sends a bare weekday name and
`next <weekday>` to the next occurrence of that weekday - strictly 1-7 days
ahead, exactly 7 when today already is that weekday - returns every other
string unchanged, and matches case-insensitively. -/
theorem c7_scalar_date_resolver :
    (∀ (today : NaiveDate) (s : String), strTrim (strToLower s) = "today" →
      resolve_relative_date today s = format_date today) ∧
    (∀ (today : NaiveDate) (s : String), strTrim (strToLower s) = "tomorrow" →
      resolve_relative_date today s = format_date (today.addDays 1)) ∧
    (∀ (today : NaiveDate) (s : String), strTrim (strToLower s) = "yesterday" →
      resolve_relative_date today s = format_date (today.addDays (-1))) ∧
    (∀ (today : NaiveDate) (w : Weekday) (s : String),
      parse_weekday (strTrim (strToLower s)) = some w →
      resolve_relative_date today s = format_date (next_weekday today w)) ∧
    (∀ (today : NaiveDate) (w : Weekday) (s : String) (rest : List Char),
      (strTrim (strToLower s)).data = 'n' :: 'e' :: 'x' :: 't' :: ' ' :: rest →
      parse_weekday (strTrim ⟨rest⟩) = some w →
      resolve_relative_date today s = format_date (next_weekday today w)) ∧
    (∀ (today : NaiveDate) (w : Weekday),
      1 ≤ (next_weekday today w).days - today.days ∧
      (next_weekday today w).days - today.days ≤ 7 ∧
      (next_weekday today w).weekday = w ∧
      (today.weekday = w → (next_weekday today w).days - today.days = 7)) ∧
    (∀ (today : NaiveDate) (s : String),
      strTrim (strToLower s) ≠ "today" → strTrim (strToLower s) ≠ "tomorrow" →
      strTrim (strToLower s) ≠ "yesterday" →
      nextPrefixTarget (strTrim (strToLower s)) = none →
      parse_weekday (strTrim (strToLower s)) = none →
      resolve_relative_date today s = s) ∧
    (∀ today : NaiveDate,
      resolve_relative_date today "TODAY" = resolve_relative_date today "today") := by
  have t1 : parse_weekday "today" = none := by decide
  have t2 : parse_weekday "tomorrow" = none := by decide
  have t3 : parse_weekday "yesterday" = none := by decide
  refine ⟨?_, ?_, ?_, ?_, ?_, ?_, ?_, ?_⟩
  · intro today s h
    simp [resolve_relative_date, h]
  · intro today s h
    simp [resolve_relative_date, h]
  · intro today s h
    simp [resolve_relative_date, h]
  · intro today w s h
    have hne1 : strTrim (strToLower s) ≠ "today" := fun e => by
      rw [e, t1] at h; cases h
    have hne2 : strTrim (strToLower s) ≠ "tomorrow" := fun e => by
      rw [e, t2] at h; cases h
    have hne3 : strTrim (strToLower s) ≠ "yesterday" := fun e => by
      rw [e, t3] at h; cases h
    have hnp : nextPrefixTarget (strTrim (strToLower s)) = none :=
      nextPrefix_of_weekday _ _ h
    simp [resolve_relative_date, hne1, hne2, hne3, hnp, h]
  · intro today w s rest hm hp
    have hne1 : strTrim (strToLower s) ≠ "today" := fun e => by
      rw [e] at hm; injection hm with hh _; exact absurd hh (by decide)
    have hne2 : strTrim (strToLower s) ≠ "tomorrow" := fun e => by
      rw [e] at hm; injection hm with hh _; exact absurd hh (by decide)
    have hne3 : strTrim (strToLower s) ≠ "yesterday" := fun e => by
      rw [e] at hm; injection hm with hh _; exact absurd hh (by decide)
    have hnp : nextPrefixTarget (strTrim (strToLower s)) =
        parse_weekday (strTrim ⟨rest⟩) := by
      unfold nextPrefixTarget
      rw [hm]
      rfl
    simp [resolve_relative_date, hne1, hne2, hne3, hnp, hp]
  · intro today w
    exact next_weekday_spec today w
  · intro today s h1 h2 h3 h4 h5
    simp [resolve_relative_date, h1, h2, h3, h4, h5]
  · intro today
    rfl

/-- C7 witness: the theorem's `next <weekday>` case applied to the concrete
input `"next friday"` at a concrete current date. -/
theorem c7_scalar_date_resolver_witness :
    ((strTrim (strToLower "next friday")).data =
        'n' :: 'e' :: 'x' :: 't' :: ' ' :: "friday".data) ∧
    parse_weekday (strTrim ⟨"friday".data⟩) = some .fri ∧
    resolve_relative_date ⟨20000⟩ "next friday" =
      format_date (next_weekday ⟨20000⟩ .fri) :=
  ⟨rfl, by decide,
    c7_scalar_date_resolver.2.2.2.2.1 ⟨20000⟩ .fri "next friday" "friday".data
      rfl (by decide)⟩

/-- C8 counterexample: the claim restricts the default 7-day range to the
bare string `forecast`, but the code tests substring containment; the input
`"forecast for boston"` is "any other string" for the claim (the scalar
resolver passes it through unchanged), yet the range resolver returns the
default 7-day range instead of a single pass-through date. -/
theorem c8_forecast_counterexample :
    resolve_relative_date ⟨0⟩ "forecast for boston" = "forecast for boston" ∧
    resolve_date_range ⟨0⟩ "forecast for boston" ≠
      (resolve_relative_date ⟨0⟩ "forecast for boston", none) := by
  exact ⟨rfl, by decide⟩

theorem sat_num_eq : Weekday.sat.num_days_from_monday = 5 := rfl

theorem weekendRange_spec (today : NaiveDate) :
    ∃ sat : NaiveDate, weekendRange today =
        (format_date sat, some (format_date (sat.addDays 1))) ∧
      sat.weekday = .sat ∧ (sat.addDays 1).weekday = .sun := by
  have hnd : today.numDaysFromMonday = (today.days + 3) % 7 := rfl
  have h0 : 0 ≤ (today.days + 3) % 7 := Int.emod_nonneg _ (by norm_num)
  have h7 : (today.days + 3) % 7 < 7 := Int.emod_lt_of_pos _ (by norm_num)
  by_cases hz : (Weekday.sat.num_days_from_monday - today.numDaysFromMonday + 7) % 7 = 0
  · have hcw : today.numDaysFromMonday = 5 := by
      rw [sat_num_eq] at hz; omega
    have hsat : today.weekday = .sat := by
      rw [weekday_eq_iff, hcw]; rfl
    have hd : weekendDus today = 0 := by
      rw [weekendDus, if_pos ⟨hz, hsat⟩]
    refine ⟨today.addDays 0, by rw [weekendRange, hd], ?_, ?_⟩
    · rw [weekday_eq_iff]
      show (today.days + 0 + 3) % 7 = Weekday.sat.num_days_from_monday
      rw [sat_num_eq]; omega
    · rw [weekday_eq_iff]
      show (today.days + 0 + 1 + 3) % 7 = Weekday.sun.num_days_from_monday
      rw [show Weekday.sun.num_days_from_monday = 6 from rfl]; omega
  · have hd : weekendDus today =
        (Weekday.sat.num_days_from_monday - today.numDaysFromMonday + 7) % 7 := by
      rw [weekendDus, if_neg (fun hand => hz hand.1), if_neg hz]
    refine ⟨today.addDays
      ((Weekday.sat.num_days_from_monday - today.numDaysFromMonday + 7) % 7),
      by rw [weekendRange, hd], ?_, ?_⟩
    · rw [weekday_eq_iff]
      show (today.days +
          (Weekday.sat.num_days_from_monday - today.numDaysFromMonday + 7) % 7 + 3) % 7 =
        Weekday.sat.num_days_from_monday
      rw [sat_num_eq] at hz ⊢
      rw [hnd] at hz ⊢
      omega
    · rw [weekday_eq_iff]
      show (today.days +
          (Weekday.sat.num_days_from_monday - today.numDaysFromMonday + 7) % 7 + 1 + 3) % 7 =
        Weekday.sun.num_days_from_monday
      rw [sat_num_eq] at hz
      rw [sat_num_eq, show Weekday.sun.num_days_from_monday = 6 from rfl]
      rw [hnd] at hz ⊢
      omega

/-- C8 (amended): `next week` yields (today, today+6); `next N days` yields
(today, today+(N-1)); `this weekend` yields a Saturday/Sunday pair one day
apart; any remaining string that contains `forecast` as a substring (not
only the bare string) yields the default range (today, today+6); every other
string yields the scalar resolver's single date with no end date - for
example `tomorrow` yields (tomorrow, none). -/
theorem c8_range_resolver :
    (∀ (today : NaiveDate) (s : String), strTrim (strToLower s) = "next week" →
      resolve_date_range today s =
        (format_date today, some (format_date (today.addDays 6)))) ∧
    (∀ (today : NaiveDate) (s : String) (mid : List Char) (n : Nat),
      (strTrim (strToLower s)).data =
        'n' :: 'e' :: 'x' :: 't' :: ' ' :: (mid ++ " days".data) →
      parseU64 (strTrim ⟨mid⟩) = some n →
      resolve_date_range today s =
        (format_date today, some (format_date (today.addDays (↑(n - 1)))))) ∧
    (∀ (today : NaiveDate) (s : String), strTrim (strToLower s) = "this weekend" →
      ∃ sat : NaiveDate, resolve_date_range today s =
          (format_date sat, some (format_date (sat.addDays 1))) ∧
        sat.weekday = .sat ∧ (sat.addDays 1).weekday = .sun) ∧
    (∀ (today : NaiveDate) (s : String),
      strTrim (strToLower s) ≠ "next week" →
      nextNDays today (strTrim (strToLower s)) = none →
      strTrim (strToLower s) ≠ "this weekend" →
      containsSub "forecast".data (strTrim (strToLower s)).data = true →
      resolve_date_range today s =
        (format_date today, some (format_date (today.addDays 6)))) ∧
    (∀ (today : NaiveDate) (s : String),
      strTrim (strToLower s) ≠ "next week" →
      nextNDays today (strTrim (strToLower s)) = none →
      strTrim (strToLower s) ≠ "this weekend" →
      containsSub "forecast".data (strTrim (strToLower s)).data = false →
      resolve_date_range today s = (resolve_relative_date today s, none)) ∧
    (∀ today : NaiveDate,
      resolve_date_range today "tomorrow" = (format_date (today.addDays 1), none)) := by
  refine ⟨?_, ?_, ?_, ?_, ?_, ?_⟩
  · intro today s h
    show rangeCore today (strTrim (strToLower s)) s = _
    rw [h]
    rfl
  · intro today s mid n hm hp
    have hne1 : strTrim (strToLower s) ≠ "next week" := fun e => by
      rw [e] at hm
      have hl := congrArg List.length hm
      simp [List.length_append] at hl
    have hnn : nextNDays today (strTrim (strToLower s)) =
        nextNDaysRest today (mid ++ " days".data) := by
      unfold nextNDays
      rw [hm]
      rfl
    have hs : stripSuffixDays (mid ++ " days".data) = some mid := by
      unfold stripSuffixDays
      have hrev : (mid ++ " days".data).reverse =
          's' :: 'y' :: 'a' :: 'd' :: ' ' :: mid.reverse := by
        simp
      rw [hrev]
      simp
    have hnn2 : nextNDaysRest today (mid ++ " days".data) =
        some (format_date today, some (format_date (today.addDays (↑(n - 1))))) := by
      unfold nextNDaysRest
      rw [hs]
      simp [hp]
    show rangeCore today (strTrim (strToLower s)) s = _
    rw [rangeCore, if_neg hne1, hnn, hnn2]
  · intro today s h
    show ∃ sat : NaiveDate, rangeCore today (strTrim (strToLower s)) s =
        (format_date sat, some (format_date (sat.addDays 1))) ∧
      sat.weekday = .sat ∧ (sat.addDays 1).weekday = .sun
    rw [h]
    exact weekendRange_spec today
  · intro today s h1 h2 h3 h4
    show rangeCore today (strTrim (strToLower s)) s = _
    rw [rangeCore, if_neg h1, h2, if_neg h3, h4]
    rfl
  · intro today s h1 h2 h3 h4
    show rangeCore today (strTrim (strToLower s)) s = _
    rw [rangeCore, if_neg h1, h2, if_neg h3, h4]
    rfl
  · intro today
    rfl

/-- C8 witness: the amended theorem's `next N days` case applied to the
concrete input `"next 5 days"` at a concrete current date. -/
theorem c8_range_resolver_witness :
    ((strTrim (strToLower "next 5 days")).data =
        'n' :: 'e' :: 'x' :: 't' :: ' ' :: ("5".data ++ " days".data)) ∧
    parseU64 (strTrim ⟨"5".data⟩) = some 5 ∧
    resolve_date_range ⟨0⟩ "next 5 days" =
      (format_date ⟨0⟩, some (format_date (NaiveDate.addDays ⟨0⟩ (↑(5 - 1 : Nat))))) :=
  ⟨rfl, by decide,
    c8_range_resolver.2.1 ⟨0⟩ "next 5 days" "5".data 5 rfl (by decide)⟩

/-- Model of the serde-derived deserializer for `IntentType` (main.rs):
a plain enum with `#[serde(rename_all = "snake_case")]` accepts exactly its
six lowercase variant tokens and rejects any other string with an
unknown-variant error. -/
def intentTypeDeserialize (s : String) : Except String IntentType :=
  if s = "summarize" then .ok .summarize
  else if s = "find" then .ok .find
  else if s = "draft" then .ok .draft
  else if s = "remind" then .ok .remind
  else if s = "weather" then .ok .weather
  else if s = "unknown" then .ok .unknown
  else .error ("unknown variant `" ++ s ++
    "`, expected one of `summarize`, `find`, `draft`, `remind`, `weather`, `unknown`")

/-- The intent arm of `normalize_intent_payload` (llm.rs): lowercase the raw
intent string, map a synonym table onto the enum, default to `Unknown`; a
missing intent is `Unknown`.  (The entity/constraint arms of the same
function copy fields and are not needed by any claim.) -/
def normalizeIntentString (raw : Option String) : IntentType :=
  match raw with
  | none => .unknown
  | some s0 =>
    let s := strToLower s0
    if s = "summarize" ∨ s = "summary" ∨ s = "summarise" then .summarize
    else if s = "find" ∨ s = "search" ∨ s = "lookup" ∨ s = "locate" ∨ s = "query" then .find
    else if s = "draft" ∨ s = "email" ∨ s = "compose" ∨ s = "write_email" then .draft
    else if s = "remind" ∨ s = "reminder" ∨ s = "todo" ∨ s = "task" then .remind
    else if s = "weather" ∨ s = "forecast" then .weather
    else .unknown

/-- C9 counterexample: at the input string `forecast`, the claim predicts
deserialization succeeds with `Unknown`; in fact the serde-derived
deserializer rejects it with an unknown-variant error, and the separate
normalization boundary maps it to `Weather`, not `Unknown`. -/
theorem c9_counterexample :
    (∃ e, intentTypeDeserialize "forecast" = .error e) ∧
    normalizeIntentString (some "forecast") = .weather :=
  ⟨⟨_, rfl⟩, rfl⟩

/-- C9 (amended): serde deserialization of `IntentType` succeeds exactly on
the six lowercase tokens and errors on every other string; the LLM
normalization boundary (`normalize_intent_payload`) is the place where
unrecognized strings resolve to `Unknown`: it never errors, recognizes a
larger synonym table case-insensitively, and yields `Unknown` for every
string outside that table and for a missing intent. -/
theorem c9_intent_deserialization :
    (∀ s : String, (∃ i, intentTypeDeserialize s = .ok i) ↔
      s ∈ ["summarize", "find", "draft", "remind", "weather", "unknown"]) ∧
    (∀ s : String,
      strToLower s ∉ ["summarize", "summary", "summarise", "find", "search",
        "lookup", "locate", "query", "draft", "email", "compose", "write_email",
        "remind", "reminder", "todo", "task", "weather", "forecast"] →
      normalizeIntentString (some s) = .unknown) ∧
    normalizeIntentString none = .unknown ∧
    normalizeIntentString (some "SUMMARIZE") = .summarize := by
  refine ⟨?_, ?_, rfl, rfl⟩
  · intro s
    constructor
    · rintro ⟨i, hi⟩
      unfold intentTypeDeserialize at hi
      split_ifs at hi with h1 h2 h3 h4 h5 h6
      · simp [h1]
      · simp [h2]
      · simp [h3]
      · simp [h4]
      · simp [h5]
      · simp [h6]
    · intro hs
      simp only [List.mem_cons, List.not_mem_nil, or_false] at hs
      rcases hs with h | h | h | h | h | h <;> subst h <;> exact ⟨_, rfl⟩
  · intro s hns
    simp only [List.mem_cons, List.not_mem_nil, or_false, not_or] at hns
    obtain ⟨n1, n2, n3, n4, n5, n6, n7, n8, n9, n10, n11, n12, n13, n14, n15,
      n16, n17, n18⟩ := hns
    simp [normalizeIntentString, n1, n2, n3, n4, n5, n6, n7, n8, n9, n10, n11,
      n12, n13, n14, n15, n16, n17, n18]

/-- C9 witness: the amended theorem's normalization case applied to the
concrete unrecognized string `banana`. -/
theorem c9_intent_deserialization_witness :
    (strToLower "banana" ∉ ["summarize", "summary", "summarise", "find", "search",
      "lookup", "locate", "query", "draft", "email", "compose", "write_email",
      "remind", "reminder", "todo", "task", "weather", "forecast"]) ∧
    normalizeIntentString (some "banana") = .unknown :=
  ⟨by decide, c9_intent_deserialization.2.1 "banana" (by decide)⟩

/-- Model of the `scryer_prolog::Term` values consumed by scryer.rs.  Floats
are modelled as rationals (no claim exercises `f64` edge cases); the crate's
further variants are unreachable in the matched code paths. -/
inductive PTerm
| atom (s : String)
| pstr (s : String)
| integer (n : Int)
| pfloat (q : Rat)
| plist (items : List PTerm)
| compound (f : String) (args : List PTerm)
| var (s : String)
deriving Repr

mutual
/-- A rendering standing in for Rust's `{:?}` debug formatting of `Term`,
used only inside error/reject message strings. -/
def PTerm.debugRepr : PTerm → String
| .atom s => "Atom(" ++ s ++ ")"
| .pstr s => "String(" ++ s ++ ")"
| .integer n => "Integer(" ++ toString n ++ ")"
| .pfloat q => "Float(" ++ toString q ++ ")"
| .plist items => "List([" ++ debugReprList items ++ "])"
| .compound f args => "Compound(" ++ f ++ ", [" ++ debugReprList args ++ "])"
| .var s => "Var(" ++ s ++ ")"

/-- Comma-separated debug rendering of a term list. -/
def debugReprList : List PTerm → String
| [] => ""
| [t] => PTerm.debugRepr t
| t :: rest => PTerm.debugRepr t ++ ", " ++ debugReprList rest
end

/-- Model of `scryer_prolog::LeafAnswer` as consumed by scryer.rs:
the bindings map is an association list with unique keys, standing for the
crate's `BTreeMap<String, Term>`. -/
inductive LeafAnswer
| leafAnswer (bindings : List (String × PTerm))
| ltrue
| lfalse
| exception (t : PTerm)
deriving Repr

/-- `term_to_atom` (scryer.rs). -/
def term_to_atom : PTerm → Except String String
| .atom s => .ok s
| t => .error ("Expected atom, got: " ++ t.debugRepr)

/-- `term_to_string` (scryer.rs): keys may be atoms or strings. -/
def term_to_string : PTerm → Except String String
| .atom s => .ok s
| .pstr s => .ok s
| t => .error ("Expected atom or string, got: " ++ t.debugRepr)

mutual
/-- `term_to_json_value` (scryer.rs).  The `IBig` integer branch parses the
decimal string back as `i64` and falls back to a string for larger values;
the catch-all branch stringifies the debug form. -/
def term_to_json_value : PTerm → Except String Json
| .atom s => .ok (.str s)
| .pstr s => .ok (.str s)
| .integer n =>
  if -(2 ^ 63) ≤ n ∧ n < 2 ^ 63 then .ok (.num (n : Rat))
  else .ok (.str (toString n))
| .pfloat q => .ok (.num q)
| .plist items => do
  let arr ← termListToJson items
  .ok (.arr arr)
| .var _ => .ok .null
| t => .ok (.str t.debugRepr)

/-- Elementwise conversion of a term list (the `collect` in scryer.rs). -/
def termListToJson : List PTerm → Except String (List Json)
| [] => .ok []
| t :: rest => do
  let v ← term_to_json_value t
  let vs ← termListToJson rest
  .ok (v :: vs)
end

/-- The association-list walk of `term_to_json` (scryer.rs): `Key-Value`
compounds are inserted into a `BTreeMap`; other items are skipped; key and
value conversion failures propagate. -/
def assocEntries : List PTerm → List (String × Json) → Except String (List (String × Json))
| [], acc => .ok acc
| item :: rest, acc =>
  match item with
  | .compound "-" [k, v] => do
    let key ← term_to_string k
    let value ← term_to_json_value v
    assocEntries rest (Json.insertSorted key value acc)
  | _ => assocEntries rest acc

/-- `term_to_json` (scryer.rs): a Prolog association list becomes a JSON
object. -/
def term_to_json : PTerm → Except String Json
| .plist items => do
  let entries ← assocEntries items []
  .ok (.obj entries)
| t => .error ("Expected list, got: " ++ t.debugRepr)

/-- `handle_exception` (scryer.rs): map an
`error(missing_required(Field), _)` term to the matching `NeedInfo`
question; any other exception becomes a `Reject`. -/
def handle_exception (exception : PTerm) : Except String Decision :=
  match exception with
  | .compound f (arg0 :: _) =>
    if f = "error" then
      match arg0 with
      | .compound g [inner0] =>
        if g = "missing_required" then do
          let field ← term_to_string inner0
          if field = "recipient" then .ok (.needInfo "Who should I email?")
          else if field = "date" then
            .ok (.needInfo "When is this due? (e.g., tomorrow, next Friday)")
          else if field = "location" then .ok (.needInfo "What location should I use?")
          else if field = "topic" then .ok (.needInfo "What topic should I use?")
          else .ok (.needInfo ("What " ++ field ++ " should I use?"))
        else .ok (.reject ("Prolog exception: " ++ exception.debugRepr))
      | _ => .ok (.reject ("Prolog exception: " ++ exception.debugRepr))
    else .ok (.reject ("Prolog exception: " ++ exception.debugRepr))
  | _ => .ok (.reject ("Prolog exception: " ++ exception.debugRepr))

/-- `extract_decision_from_answer` (scryer.rs): on a successful probe the
Scryer strategy reads the `Tool` and `Args` bindings out of the engine's
answer and builds the `Route` from them itself (the `_payload` parameter is
unused, exactly as in the source). -/
def extract_decision_from_answer (answer : LeafAnswer) (_payload : IntentPayload) :
    Except String Decision :=
  match answer with
  | .leafAnswer bindings =>
    match bindings.lookup "Tool" with
    | none => .error "Tool not bound in answer"
    | some tool =>
      match bindings.lookup "Args" with
      | none => .error "Args not bound in answer"
      | some args => do
        let tool_name ← term_to_atom tool
        let args_json ← term_to_json args
        .ok (.route tool_name args_json)
  | .ltrue => .ok (.reject "Query succeeded but no variable bindings")
  | .lfalse => .ok (.reject "No matching route found")
  | .exception t => handle_exception t

/-- `scryer_decide` (scryer.rs).  The reading of the rule file and the run
of the machine are external effects: `routerFile` is the outcome of
`fs::read_to_string(router_path)` and `firstResult` the first element the
query iterator yields (`Ok` answer, `Err` exception term, or nothing). -/
def scryer_decide (payload : IntentPayload) (routerFile : Except String String)
    (firstResult : Option (Except PTerm LeafAnswer)) : Except String Decision := do
  let _ ← routerFile
  match firstResult with
  | some (.ok answer) => extract_decision_from_answer answer payload
  | some (.error exception) => handle_exception exception
  | none => .ok (.reject "No matching route found")

/-- `prolog_decide_via_json` (prolog.rs).  Engine/consult interaction is an
external effect: `setupResult` is the outcome of parsing the consult goal
and loading the rule file (failures propagate as errors), `callResult` the
outcome of `call_term_once` on the probe query.  On probe success the
strategy returns the Native stub's decision; on probe error it searches the
error text for a `missing_required(...)` marker. -/
def prolog_decide_via_json (apple_configured : Bool) (payload : IntentPayload)
    (setupResult : Except String Unit) (callResult : Except String Unit) :
    Except String Decision := do
  let _ ← setupResult
  match callResult with
  | .ok _ => .ok (prolog_decide_stub apple_configured payload)
  | .error err_str =>
    if containsSub "missing_required(date)".data err_str.data then
      .ok (.needInfo "When is this due? (e.g., tomorrow, next Friday)")
    else if containsSub "missing_required(location)".data err_str.data then
      .ok (.needInfo "What location should I use?")
    else if containsSub "missing_required(recipient)".data err_str.data then
      .ok (.needInfo "Who should I email?")
    else if containsSub "missing_required(topic)".data err_str.data then
      .ok (.needInfo "What topic should I use?")
    else
      .ok (.reject ("No matching route found: " ++ err_str))

/-- C1 counterexample: on probe success the Scryer strategy does extract the
bound Tool/Args values from the external engine's answer and builds the
Route from them itself: for the Summarize/Notes payload whose Native
decision routes to `search_notes`, an engine answer binding
`Tool = search_files, Args = []` makes the strategy return that binding's
Route, not the Native strategy's decision. -/
theorem c1_counterexample :
    scryer_decide
        ⟨.summarize, { topic := some "machine learning" },
          { source_preference := .notes }⟩
        (.ok "route rules") (some (.ok (.leafAnswer
          [("Args", .plist []), ("Tool", .atom "search_files")]))) ≠
      .ok (prolog_decide_stub false
        ⟨.summarize, { topic := some "machine learning" },
          { source_preference := .notes }⟩) := by
  intro h
  injection h with h1
  injection h1 with ht _
  exact absurd ht (by decide)

/-- C1 (amended): Engine-A (SWI) defers on probe success - it returns the
Native strategy's decision and extracts nothing from the engine - while
Engine-B (Scryer) extracts the `Tool` and `Args` bindings from a successful
answer and constructs the Route from them itself; a probe with no solution
is downgraded to a Reject. -/
theorem c1_engine_probe_behaviour :
    (∀ (apple : Bool) (payload : IntentPayload),
      prolog_decide_via_json apple payload (.ok ()) (.ok ()) =
        .ok (prolog_decide_stub apple payload)) ∧
    (∀ (payload : IntentPayload) (rules : String) (bindings : List (String × PTerm))
        (t : String) (args : PTerm) (j : Json),
      bindings.lookup "Tool" = some (.atom t) →
      bindings.lookup "Args" = some args →
      term_to_json args = .ok j →
      scryer_decide payload (.ok rules) (some (.ok (.leafAnswer bindings))) =
        .ok (.route t j)) ∧
    (∀ (payload : IntentPayload) (rules : String),
      scryer_decide payload (.ok rules) none = .ok (.reject "No matching route found")) := by
  refine ⟨fun apple payload => rfl, ?_, fun payload rules => rfl⟩
  intro payload rules bindings t args j h1 h2 h3
  show (match bindings.lookup "Tool" with
    | none => Except.error "Tool not bound in answer"
    | some tool =>
      match bindings.lookup "Args" with
      | none => Except.error "Args not bound in answer"
      | some args => do
        let tool_name ← term_to_atom tool
        let args_json ← term_to_json args
        Except.ok (Decision.route tool_name args_json)) =
    Except.ok (Decision.route t j)
  rw [h1, h2]
  show (do
    let args_json ← term_to_json args
    Except.ok (Decision.route t args_json) : Except String Decision) = _
  rw [h3]
  rfl

/-- C1 witness: the amended theorem's Scryer case applied to a concrete
answer carrying explicit `Tool`/`Args` bindings. -/
theorem c1_engine_probe_behaviour_witness :
    ([("Args", PTerm.plist [PTerm.compound "-" [PTerm.atom "query", PTerm.pstr "x"]]),
        ("Tool", PTerm.atom "search_files")].lookup "Tool" =
      some (PTerm.atom "search_files")) ∧
    ([("Args", PTerm.plist [PTerm.compound "-" [PTerm.atom "query", PTerm.pstr "x"]]),
        ("Tool", PTerm.atom "search_files")].lookup "Args" =
      some (PTerm.plist [PTerm.compound "-" [PTerm.atom "query", PTerm.pstr "x"]])) ∧
    term_to_json (PTerm.plist [PTerm.compound "-" [PTerm.atom "query", PTerm.pstr "x"]]) =
      .ok (Json.obj [("query", Json.str "x")]) ∧
    scryer_decide ⟨.find, {}, {}⟩ (.ok "rules")
        (some (.ok (.leafAnswer
          [("Args", PTerm.plist [PTerm.compound "-" [PTerm.atom "query", PTerm.pstr "x"]]),
            ("Tool", PTerm.atom "search_files")]))) =
      .ok (.route "search_files" (Json.obj [("query", Json.str "x")])) :=
  ⟨rfl, rfl, rfl,
    c1_engine_probe_behaviour.2.1 ⟨.find, {}, {}⟩ "rules"
      [("Args", PTerm.plist [PTerm.compound "-" [PTerm.atom "query", PTerm.pstr "x"]]),
        ("Tool", PTerm.atom "search_files")]
      "search_files" (PTerm.plist [PTerm.compound "-" [PTerm.atom "query", PTerm.pstr "x"]])
      (Json.obj [("query", Json.str "x")]) rfl rfl rfl⟩

/-- Hex digit for JSON control-character escapes. -/
def hexDigit (n : Nat) : Char :=
  if n < 10 then Char.ofNat ('0'.toNat + n) else Char.ofNat ('a'.toNat + (n - 10))

/-- String-content escaping of `serde_json`'s compact `Display`. -/
def jsonEscape (l : List Char) : List Char :=
  l.flatMap fun c =>
    if c = '"' then ['\\', '"']
    else if c = '\\' then ['\\', '\\']
    else if c = Char.ofNat 8 then ['\\', 'b']
    else if c = Char.ofNat 12 then ['\\', 'f']
    else if c = '\n' then ['\\', 'n']
    else if c = '\r' then ['\\', 'r']
    else if c = '\t' then ['\\', 't']
    else if c.toNat < 32 then
      ['\\', 'u', '0', '0', hexDigit (c.toNat / 16), hexDigit (c.toNat % 16)]
    else [c]

mutual
/-- Model of `serde_json`'s compact `Display`/`to_string` for a `Value`
(what `format!("{}", args)` and `serde_json::to_string(&args)` produce).
Integral numbers render as integers; no claim renders non-integral
numbers. -/
def Json.render : Json → String
| .null => "null"
| .bool b => if b then "true" else "false"
| .num q => if q.den = 1 then toString q.num else toString q
| .str s => "\"" ++ String.mk (jsonEscape s.data) ++ "\""
| .arr xs => "[" ++ Json.renderSeq xs ++ "]"
| .obj kvs => "\x7b" ++ Json.renderObjSeq kvs ++ "\x7d"

/-- Comma-joined rendering of array elements. -/
def Json.renderSeq : List Json → String
| [] => ""
| [x] => Json.render x
| x :: rest => Json.render x ++ "," ++ Json.renderSeq rest

/-- Comma-joined rendering of object entries. -/
def Json.renderObjSeq : List (String × Json) → String
| [] => ""
| [(k, v)] => "\"" ++ String.mk (jsonEscape k.data) ++ "\":" ++ Json.render v
| (k, v) :: rest =>
  "\"" ++ String.mk (jsonEscape k.data) ++ "\":" ++ Json.render v ++ "," ++
    Json.renderObjSeq rest
end

/-- `Value::as_str`. -/
def Json.asStr : Json → Option String
| .str s => some s
| _ => none

/-- The collaborator contract of `tools::ToolExecutor` as used by
`execute_tool`: an endpoint test and an execution returning output,
`None` when unconfigured, or an error. -/
structure ToolExecutorM where
  hasEndpoint : String → Bool
  execute : String → Json → Except String (Option String)

/-- `apple_weather::QueryType` with its `from_str` (apple_weather.rs):
unrecognized strings fall back to `Current`, which is also the default. -/
inductive AWQueryType
| current
| forecast
| assessment
deriving DecidableEq, Repr

/-- `QueryType::from_str` (apple_weather.rs). -/
def AWQueryType.from_str (s : String) : AWQueryType :=
  let t := strToLower s
  if t = "forecast" then .forecast
  else if t = "assessment" then .assessment
  else .current

/-- The note-tool action translation inside `execute_tool` (agent.rs); the
final arm is the source's `unreachable!()`, guarded by the tool-list test. -/
def notesAction (tool : String) (args : Json) : String :=
  if tool = "search_notes" then "search"
  else if tool = "list_notes" then "list"
  else if tool = "get_note" then "get"
  else if tool = "notes_index" then
    (if ((args.lookup "action").bind Json.asStr).getD "check" = "build"
      then "index_build" else "index_check")
  else if tool = "notes_tags" then "tags"
  else "search_by_tag"

/-- The stub fall-through of `execute_tool` (agent.rs), identical to
`run_tool_stub` (main.rs) except that it is paired with `success = true`:
every known tool gets a stub line, and an unrecognized tool gets a
`[stub] unknown tool:` line, still with `success = true`. -/
def stubResult (tool : String) (args : Json) : Bool × String :=
  (true,
    if tool = "search_notes" then "[stub] searched notes for: " ++ args.render
    else if tool = "search_files" then "[stub] searched files for: " ++ args.render
    else if tool = "get_weather" then "[stub] weather result for: " ++ args.render
    else if tool = "get_apple_weather" then
      "[stub] apple weather result for: " ++ args.render
    else if tool = "draft_email" then "[stub] drafted email with: " ++ args.render
    else if tool = "create_todo" then "[stub] created todo with: " ++ args.render
    else "[stub] unknown tool: " ++ tool ++ " args=" ++ args.render)

/-- `execute_tool` (agent.rs).  External collaborators are parameters:
`notes_available`/`notesExec` stand for `apple_notes::is_available` and
`apple_notes::execute_apple_notes`, `apple_configured`/`appleExec` for
`apple_weather::is_configured` and `apple_weather::execute_apple_weather`,
and `executor` for the optional HTTP tool executor. -/
def execute_tool (notes_available : Bool)
    (notesExec : String → Json → Except String String)
    (apple_configured : Bool)
    (appleExec : String → Option String → Option String → AWQueryType →
      Except String String)
    (executor : Option ToolExecutorM) (tool : String) (args : Json) :
    Bool × String :=
  if tool ∈ ["search_notes", "list_notes", "get_note", "notes_index", "notes_tags",
      "notes_search_by_tag"] ∧ notes_available then
    match notesExec (notesAction tool args) args with
    | .ok result => (true, result)
    | .error e => (false, "Apple Notes error: " ++ e)
  else if tool = "get_apple_weather" ∧ apple_configured then
    match appleExec (((args.lookup "location").bind Json.asStr).getD "NYC")
        ((args.lookup "date").bind Json.asStr)
        ((args.lookup "date_end").bind Json.asStr)
        ((((args.lookup "weather_query").bind Json.asStr).map
          AWQueryType.from_str).getD .current) with
    | .ok result => (true, result)
    | .error e => (false, "Error: " ++ e)
  else
    match executor with
    | some exec =>
      if exec.hasEndpoint tool then
        match exec.execute tool args with
        | .ok (some result) => (true, result)
        | .ok none => stubResult tool args
        | .error e => (false, "Error: " ++ e)
      else stubResult tool args
    | none => stubResult tool args

/-- C10 (implicit): the agent-mode tool dispatcher is total - every call
yields a `(success, output)` pair - and a tool name matching no built-in
integration, no configured endpoint and no known stub is reported as a
SUCCESSFUL result whose output is the `[stub] unknown tool:` line. -/
theorem c10_execute_tool_unknown_is_success :
    (∀ na ne ac ae ex tool args, ∃ (success : Bool) (output : String),
      execute_tool na ne ac ae ex tool args = (success, output)) ∧
    (∀ (na : Bool) (ne : String → Json → Except String String) (ac : Bool)
        (ae : String → Option String → Option String → AWQueryType →
          Except String String)
        (ex : Option ToolExecutorM) (tool : String) (args : Json),
      tool ∉ ["search_notes", "list_notes", "get_note", "notes_index", "notes_tags",
        "notes_search_by_tag"] →
      tool ≠ "get_apple_weather" →
      (∀ e, ex = some e → e.hasEndpoint tool = false) →
      tool ∉ ["search_notes", "search_files", "get_weather", "get_apple_weather",
        "draft_email", "create_todo"] →
      execute_tool na ne ac ae ex tool args =
        (true, "[stub] unknown tool: " ++ tool ++ " args=" ++ args.render)) := by
  constructor
  · intro na ne ac ae ex tool args
    exact ⟨_, _, rfl⟩
  · intro na ne ac ae ex tool args h1 h2 h3 h4
    simp only [List.mem_cons, List.not_mem_nil, or_false, not_or] at h4
    obtain ⟨m1, m2, m3, m4, m5, m6⟩ := h4
    have hstub : stubResult tool args =
        (true, "[stub] unknown tool: " ++ tool ++ " args=" ++ args.render) := by
      rw [stubResult, if_neg m1, if_neg m2, if_neg m3, if_neg m4, if_neg m5, if_neg m6]
    rw [execute_tool.eq_def, if_neg (fun hand => h1 hand.1), if_neg (fun hand => h2 hand.1)]
    cases ex with
    | none => exact hstub
    | some e =>
      show (if e.hasEndpoint tool = true then
          match e.execute tool args with
          | Except.ok (some result) => (true, result)
          | Except.ok none => stubResult tool args
          | Except.error e0 => (false, "Error: " ++ e0)
        else stubResult tool args) = _
      rw [h3 e rfl, if_neg (by decide : ¬(false = true))]
      exact hstub

/-- C10 witness: the theorem applied to an unrecognized tool name with no
executor configured. -/
theorem c10_execute_tool_unknown_is_success_witness :
    ("frobnicate" ∉ ["search_notes", "list_notes", "get_note", "notes_index",
      "notes_tags", "notes_search_by_tag"]) ∧
    ("frobnicate" ≠ "get_apple_weather") ∧
    ("frobnicate" ∉ ["search_notes", "search_files", "get_weather",
      "get_apple_weather", "draft_email", "create_todo"]) ∧
    execute_tool false (fun _ _ => .ok "") false (fun _ _ _ _ => .ok "") none
        "frobnicate" (Json.obj []) =
      (true, "[stub] unknown tool: " ++ "frobnicate" ++ " args=" ++
        (Json.obj []).render) :=
  ⟨by decide, by decide, by decide,
    c10_execute_tool_unknown_is_success.2 false (fun _ _ => .ok "") false
      (fun _ _ _ _ => .ok "") none "frobnicate" (Json.obj [])
      (by decide) (by decide) (fun e h => Option.noConfusion h) (by decide)⟩

/-- Hexadecimal digit value, for `\uXXXX` string escapes. -/
def parseHexDigit (c : Char) : Option Nat :=
  if '0' ≤ c ∧ c ≤ '9' then some (c.toNat - '0'.toNat)
  else if 'a' ≤ c ∧ c ≤ 'f' then some (c.toNat - 'a'.toNat + 10)
  else if 'A' ≤ c ∧ c ≤ 'F' then some (c.toNat - 'A'.toNat + 10)
  else none

/-- JSON string-body parser (model of `serde_json`'s string grammar): the
input starts after the opening quote; returns the decoded content and the
remainder after the closing quote.  Raw control characters, bad escapes and
lone surrogates are rejected. -/
def parseStringBody : List Char → Option (List Char × List Char)
| [] => none
| '"' :: rest => some ([], rest)
| '\\' :: e :: rest =>
  let simple : Option Char :=
    if e = '"' then some '"'
    else if e = '\\' then some '\\'
    else if e = '/' then some '/'
    else if e = 'b' then some (Char.ofNat 8)
    else if e = 'f' then some (Char.ofNat 12)
    else if e = 'n' then some '\n'
    else if e = 'r' then some '\r'
    else if e = 't' then some '\t'
    else none
  match simple with
  | some c => (parseStringBody rest).map fun p => (c :: p.1, p.2)
  | none =>
    if e = 'u' then
      match rest with
      | h1 :: h2 :: h3 :: h4 :: rest2 =>
        match parseHexDigit h1, parseHexDigit h2, parseHexDigit h3, parseHexDigit h4 with
        | some d1, some d2, some d3, some d4 =>
          let n := ((d1 * 16 + d2) * 16 + d3) * 16 + d4
          if 55296 ≤ n ∧ n ≤ 56319 then
            match rest2 with
            | '\\' :: 'u' :: g1 :: g2 :: g3 :: g4 :: rest3 =>
              match parseHexDigit g1, parseHexDigit g2, parseHexDigit g3,
                  parseHexDigit g4 with
              | some e1, some e2, some e3, some e4 =>
                let m := ((e1 * 16 + e2) * 16 + e3) * 16 + e4
                if 56320 ≤ m ∧ m ≤ 57343 then
                  (parseStringBody rest3).map fun p =>
                    (Char.ofNat ((n - 55296) * 1024 + (m - 56320) + 65536) :: p.1, p.2)
                else none
              | _, _, _, _ => none
            | _ => none
          else if 56320 ≤ n ∧ n ≤ 57343 then none
          else (parseStringBody rest2).map fun p => (Char.ofNat n :: p.1, p.2)
        | _, _, _, _ => none
      | _ => none
    else none
| c :: rest =>
  if c.toNat < 32 then none
  else (parseStringBody rest).map fun p => (c :: p.1, p.2)

/-- Decimal value of a digit run. -/
def digitsVal (ds : List Char) : Nat :=
  ds.foldl (fun acc c => acc * 10 + (c.toNat - '0'.toNat)) 0

/-- JSON number parser (model of `serde_json`'s number grammar), producing
an exact rational; no claim exercises `f64` rounding. -/
def parseNumber (cs : List Char) : Option (Rat × List Char) :=
  let signed : Bool × List Char := match cs with
    | '-' :: r => (true, r)
    | _ => (false, cs)
  match signed.2 with
  | c :: _ =>
    if c.isDigit then
      let ip := signed.2.span Char.isDigit
      if 1 < ip.1.length ∧ ip.1.head? = some '0' then none
      else
        let frac : Option (List Char × List Char) := match ip.2 with
          | '.' :: r2 =>
            let fp := r2.span Char.isDigit
            if fp.1.isEmpty then none else some fp
          | _ => some ([], ip.2)
        match frac with
        | none => none
        | some (fs, rest2) =>
          let ex : Option (Int × List Char) := match rest2 with
            | 'e' :: r3 | 'E' :: r3 =>
              let se : Bool × List Char := match r3 with
                | '-' :: r4 => (true, r4)
                | '+' :: r4 => (false, r4)
                | _ => (false, r3)
              let ep := se.1
              let dp := se.2.span Char.isDigit
              if dp.1.isEmpty then none
              else some ((if ep then -(digitsVal dp.1 : Int) else (digitsVal dp.1 : Int)), dp.2)
            | _ => some (0, rest2)
          match ex with
          | none => none
          | some (e, rest3) =>
            let mant : Nat := digitsVal (ip.1 ++ fs)
            let scale : Int := e - fs.length
            let q0 : Rat := (mant : Rat) * (10 : Rat) ^ scale
            some ((if signed.1 then -q0 else q0), rest3)
    else none
  | [] => none

mutual
/-- JSON value parser (model of `serde_json`'s grammar): fuel bounds the
recursion depth; `input length + 1` fuel always suffices because every
nested call follows at least one consumed character. -/
def parseValue : Nat → List Char → Option (Json × List Char)
| 0, _ => none
| fuel + 1, cs =>
  let cs1 := cs.dropWhile Char.isWhitespace
  match cs1 with
  | 'n' :: 'u' :: 'l' :: 'l' :: r => some (.null, r)
  | 't' :: 'r' :: 'u' :: 'e' :: r => some (.bool true, r)
  | 'f' :: 'a' :: 'l' :: 's' :: 'e' :: r => some (.bool false, r)
  | '"' :: r => (parseStringBody r).map fun p => (.str (String.mk p.1), p.2)
  | '{' :: r => parseObjBody fuel r
  | '[' :: r => parseArrBody fuel r
  | _ => (parseNumber cs1).map fun p => (.num p.1, p.2)

/-- Object body after `{`: empty object or entry list. -/
def parseObjBody : Nat → List Char → Option (Json × List Char)
| 0, _ => none
| fuel + 1, cs =>
  let cs1 := cs.dropWhile Char.isWhitespace
  match cs1 with
  | '}' :: r => some (.obj [], r)
  | _ => parseObjEntries fuel cs1 []

/-- Object entries: `"key": value` pairs separated by commas, accumulated
with the sorted-unique insertion that models `BTreeMap` (later duplicates
overwrite). -/
def parseObjEntries : Nat → List Char → List (String × Json) →
    Option (Json × List Char)
| 0, _, _ => none
| fuel + 1, cs, acc =>
  match cs.dropWhile Char.isWhitespace with
  | '"' :: r =>
    match parseStringBody r with
    | none => none
    | some (key, r1) =>
      match r1.dropWhile Char.isWhitespace with
      | ':' :: r2 =>
        match parseValue fuel r2 with
        | none => none
        | some (v, r3) =>
          let acc2 := Json.insertSorted (String.mk key) v acc
          match r3.dropWhile Char.isWhitespace with
          | ',' :: r4 => parseObjEntries fuel r4 acc2
          | '}' :: r4 => some (.obj acc2, r4)
          | _ => none
      | _ => none
  | _ => none

/-- Array body after `[`: empty array or element list. -/
def parseArrBody : Nat → List Char → Option (Json × List Char)
| 0, _ => none
| fuel + 1, cs =>
  let cs1 := cs.dropWhile Char.isWhitespace
  match cs1 with
  | ']' :: r => some (.arr [], r)
  | _ => parseArrElems fuel cs1 []

/-- Array elements separated by commas. -/
def parseArrElems : Nat → List Char → List Json → Option (Json × List Char)
| 0, _, _ => none
| fuel + 1, cs, acc =>
  match parseValue fuel cs with
  | none => none
  | some (v, r) =>
    match r.dropWhile Char.isWhitespace with
    | ',' :: r2 => parseArrElems fuel r2 (acc ++ [v])
    | ']' :: r2 => some (.arr (acc ++ [v]), r2)
    | _ => none
end

/-- Whole-input JSON parse (model of `serde_json::from_str` for a `Value`):
the value must be followed by nothing but whitespace. -/
def parseJsonChars (cs : List Char) : Option Json :=
  match parseValue (cs.length + 1) cs with
  | some (j, rest) => if (rest.dropWhile Char.isWhitespace).isEmpty then some j else none
  | none => none

/-- `AgentAction` (agent.rs): the internally tagged action union. -/
inductive AgentAction
| callTool (tool : String) (args : Json)
| finalAnswer (answer : String)
| askUser (question : String)
deriving Repr

/-- Model of serde's derived deserializer for the internally tagged
`AgentAction`: the object's `action` tag selects the variant, the variant's
fields must be present with the right types, unknown extra fields are
ignored. -/
def actionFromJson : Json → Option AgentAction
| .obj entries =>
  match entries.lookup "action" with
  | some (.str a) =>
    if a = "call_tool" then
      match entries.lookup "tool", entries.lookup "args" with
      | some (.str tool), some args => some (.callTool tool args)
      | _, _ => none
    else if a = "final_answer" then
      match entries.lookup "answer" with
      | some (.str answer) => some (.finalAnswer answer)
      | _ => none
    else if a = "ask_user" then
      match entries.lookup "question" with
      | some (.str question) => some (.askUser question)
      | _ => none
    else none
  | _ => none
| _ => none

/-- Model of `serde_json::from_str::<AgentAction>` on a candidate slice. -/
def actionFromChars (cs : List Char) : Option AgentAction :=
  (parseJsonChars cs).bind actionFromJson

/-- The brace-balancing loop of `parse_agent_action` (agent.rs): walk the
slice tracking string-literal and escape state; return the number of
characters up to and including the brace that closes depth 0. -/
def balanceFrom : List Char → Bool → Bool → Int → Option Nat
| [], _, _, _ => none
| c :: cs, inStr, esc, depth =>
  if inStr then
    if esc then (balanceFrom cs true false depth).map (· + 1)
    else if c = '\\' then (balanceFrom cs true true depth).map (· + 1)
    else if c = '"' then (balanceFrom cs false esc depth).map (· + 1)
    else (balanceFrom cs true esc depth).map (· + 1)
  else
    if c = '"' then (balanceFrom cs true esc depth).map (· + 1)
    else if c = '{' then (balanceFrom cs false esc (depth + 1)).map (· + 1)
    else if c = '}' then
      if depth - 1 = 0 then some 1
      else (balanceFrom cs false esc (depth - 1)).map (· + 1)
    else (balanceFrom cs false esc depth).map (· + 1)

/-- The left-to-right scan of `parse_agent_action` (agent.rs): at each `{`
balance braces, try the candidate as an action, remember the last success,
resume past the candidate (or past the `{` when no brace closes it).  Fuel
bounds the iterations; `input length + 1` suffices because every step
consumes at least one character. -/
def scanLoop : Nat → List Char → Option AgentAction → Option AgentAction
| 0, _, best => best
| fuel + 1, cs, best =>
  match cs with
  | [] => best
  | c :: rest =>
    if c = '{' then
      match balanceFrom (c :: rest) false false 0 with
      | some n =>
        let best2 := match actionFromChars ((c :: rest).take n) with
          | some a => some a
          | none => best
        scanLoop fuel ((c :: rest).drop n) best2
      | none => scanLoop fuel rest best
    else scanLoop fuel rest best

/-- `parse_agent_action` (agent.rs): trim; if the whole text is one
`{...}` block try it directly; otherwise scan for brace-balanced candidates
and return the last one that parses as an action, failing when none does. -/
def parse_agent_action (text : String) : Except String AgentAction :=
  let s := strTrim text
  let fast : Option AgentAction :=
    if s.data.head? = some '{' ∧ s.data.getLast? = some '}' then actionFromChars s.data
    else none
  match fast with
  | some a => .ok a
  | none =>
    match scanLoop (s.data.length + 1) s.data none with
    | some a => .ok a
    | none => .error "No valid agent action JSON found in LLM output"

set_option maxRecDepth 16384

theorem balanceFrom_bounds : ∀ (cs : List Char) (i e : Bool) (d : Int) (n : Nat),
    balanceFrom cs i e d = some n → 1 ≤ n ∧ n ≤ cs.length := by
  intro cs
  induction cs with
  | nil => intro i e d n h; cases h
  | cons c rest ih =>
    intro i e d n h
    unfold balanceFrom at h
    split_ifs at h <;>
      first
      | (rw [Option.map_eq_some'] at h
         obtain ⟨m, hm, hn⟩ := h
         have hh := ih _ _ _ _ hm
         simp only [List.length_cons]
         omega)
      | (injection h with hn
         simp only [List.length_cons]
         omega)

theorem balanceFrom_append (t : List Char) : ∀ (cs : List Char) (i e : Bool) (d : Int)
    (n : Nat), balanceFrom cs i e d = some n → balanceFrom (cs ++ t) i e d = some n := by
  intro cs
  induction cs with
  | nil => intro i e d n h; cases h
  | cons c rest ih =>
    intro i e d n h
    rw [List.cons_append]
    unfold balanceFrom at h ⊢
    split_ifs at h ⊢ <;>
      first
      | (rw [Option.map_eq_some'] at h
         obtain ⟨m, hm, hn⟩ := h
         rw [ih _ _ _ _ hm]
         simp [hn])
      | exact h

theorem scanLoop_nil (fuel : Nat) (best : Option AgentAction) :
    scanLoop fuel [] best = best := by
  cases fuel <;> rfl

theorem scanLoop_step (fuel : Nat) (rest : List Char) (best : Option AgentAction)
    (n : Nat) (hb : balanceFrom ('{' :: rest) false false 0 = some n) :
    scanLoop (fuel + 1) ('{' :: rest) best =
      scanLoop fuel (('{' :: rest).drop n)
        (match actionFromChars (('{' :: rest).take n) with
          | some a => some a
          | none => best) := by
  simp only [scanLoop, if_true]
  rw [hb]

theorem scanLoop_last_wins (r1 r2 : List Char) (a b : AgentAction)
    (hb1 : balanceFrom ('{' :: r1) false false 0 = some (r1.length + 1))
    (hb2 : balanceFrom ('{' :: r2) false false 0 = some (r2.length + 1))
    (ha : actionFromChars ('{' :: r1) = some a)
    (hbb : actionFromChars ('{' :: r2) = some b) :
    scanLoop ((('{' :: r1) ++ ('{' :: r2)).length + 1) (('{' :: r1) ++ ('{' :: r2)) none =
      some b := by
  have hb1' : balanceFrom ('{' :: (r1 ++ '{' :: r2)) false false 0 = some (r1.length + 1) :=
    balanceFrom_append ('{' :: r2) ('{' :: r1) false false 0 (r1.length + 1) hb1
  have htake1 : ('{' :: (r1 ++ '{' :: r2)).take (r1.length + 1) = '{' :: r1 := by
    rw [List.take_succ_cons, List.take_left]
  have hdrop1 : ('{' :: (r1 ++ '{' :: r2)).drop (r1.length + 1) = '{' :: r2 := by
    rw [List.drop_succ_cons, List.drop_left]
  have htake2 : ('{' :: r2).take (r2.length + 1) = '{' :: r2 := by
    rw [List.take_succ_cons, List.take_length]
  have hdrop2 : ('{' :: r2).drop (r2.length + 1) = ([] : List Char) := by
    rw [List.drop_succ_cons, List.drop_length]
  show scanLoop ((r1 ++ '{' :: r2).length + 1 + 1) ('{' :: (r1 ++ '{' :: r2)) none = some b
  rw [scanLoop_step ((r1 ++ '{' :: r2).length + 1) (r1 ++ '{' :: r2) none
    (r1.length + 1) hb1']
  rw [htake1, hdrop1, ha]
  show scanLoop ((r1 ++ '{' :: r2).length + 1) ('{' :: r2) (some a) = some b
  have hlen : (r1 ++ '{' :: r2).length + 1 = (r1.length + r2.length + 1) + 1 := by
    simp [List.length_append]
    omega
  rw [hlen]
  rw [scanLoop_step (r1.length + r2.length + 1) r2 (some a) (r2.length + 1) hb2]
  rw [htake2, hdrop2, hbb]
  rw [scanLoop_nil]

/-- C5: the action parser scans left to right with string-aware brace
balancing and returns the last brace-balanced substring that parses as a
valid `AgentAction`: for two valid action objects in sequence it returns
the second; on the spec's example text it returns the embedded
`call_tool` action; and when no candidate parses as an action it fails
with the no-valid-action error instead of returning an action. -/
theorem c5_action_extraction :
    (∀ (r1 r2 : List Char) (a b : AgentAction),
      balanceFrom ('{' :: r1) false false 0 = some (r1.length + 1) →
      balanceFrom ('{' :: r2) false false 0 = some (r2.length + 1) →
      actionFromChars ('{' :: r1) = some a →
      actionFromChars ('{' :: r2) = some b →
      strTrim (String.mk (('{' :: r1) ++ ('{' :: r2))) =
        String.mk (('{' :: r1) ++ ('{' :: r2)) →
      actionFromChars (('{' :: r1) ++ ('{' :: r2)) = none →
      parse_agent_action (String.mk (('{' :: r1) ++ ('{' :: r2))) = .ok b) ∧
    parse_agent_action
        "Let me check.\n\x7b\"action\":\"call_tool\",\"tool\":\"get_weather\",\"args\":\x7b\"location\":\"Seattle\"\x7d\x7d\n" =
      .ok (.callTool "get_weather" (Json.obj [("location", .str "Seattle")])) ∧
    parse_agent_action
        "\x7b\"action\":\"ask_user\",\"question\":\"A?\"\x7d\x7b\"action\":\"final_answer\",\"answer\":\"B\"\x7d" =
      .ok (.finalAnswer "B") ∧
    parse_agent_action "hello \x7b\"a\": 1\x7d world" =
      .error "No valid agent action JSON found in LLM output" := by
  refine ⟨?_, rfl, rfl, rfl⟩
  intro r1 r2 a b hb1 hb2 ha hbb htrim hwhole
  unfold parse_agent_action
  rw [htrim]
  show (match (if (String.mk (('{' :: r1) ++ ('{' :: r2))).data.head? = some '{' ∧
        (String.mk (('{' :: r1) ++ ('{' :: r2))).data.getLast? = some '}' then
      actionFromChars (String.mk (('{' :: r1) ++ ('{' :: r2))).data
    else none) with
    | some a => Except.ok a
    | none =>
      match scanLoop ((String.mk (('{' :: r1) ++ ('{' :: r2))).data.length + 1)
          (String.mk (('{' :: r1) ++ ('{' :: r2))).data none with
      | some a => Except.ok a
      | none => Except.error "No valid agent action JSON found in LLM output") =
    Except.ok b
  rw [show (String.mk (('{' :: r1) ++ ('{' :: r2))).data = ('{' :: r1) ++ ('{' :: r2)
    from rfl]
  rw [hwhole, ite_self]
  rw [scanLoop_last_wins r1 r2 a b hb1 hb2 ha hbb]

/-- C5 witness: the last-wins case of the theorem applied to two concrete
valid action objects in sequence. -/
theorem c5_action_extraction_witness :
    balanceFrom ('{' :: "\"action\":\"ask_user\",\"question\":\"A?\"\x7d".data) false false 0 =
      some ("\"action\":\"ask_user\",\"question\":\"A?\"\x7d".data.length + 1) ∧
    actionFromChars ('{' :: "\"action\":\"ask_user\",\"question\":\"A?\"\x7d".data) =
      some (.askUser "A?") ∧
    actionFromChars ('{' :: "\"action\":\"final_answer\",\"answer\":\"B\"\x7d".data) =
      some (.finalAnswer "B") ∧
    parse_agent_action (String.mk
        (('{' :: "\"action\":\"ask_user\",\"question\":\"A?\"\x7d".data) ++
          ('{' :: "\"action\":\"final_answer\",\"answer\":\"B\"\x7d".data))) =
      .ok (.finalAnswer "B") :=
  ⟨rfl, rfl, rfl,
    c5_action_extraction.1 "\"action\":\"ask_user\",\"question\":\"A?\"\x7d".data
      "\"action\":\"final_answer\",\"answer\":\"B\"\x7d".data
      (.askUser "A?") (.finalAnswer "B") rfl rfl rfl rfl rfl rfl⟩

/-- `MessageRole` (agent.rs). -/
inductive MessageRole
| user
| assistant
| tool
deriving DecidableEq, BEq, Repr

/-- `ToolResult` (agent.rs). -/
structure ToolResult where
  tool : String
  success : Bool
  output : String
deriving Repr

/-- `Message` (agent.rs). -/
structure Message where
  role : MessageRole
  content : String
  tool_result : Option ToolResult := none
deriving Repr

/-- `Message::user`. -/
def Message.mkUser (content : String) : Message := ⟨.user, content, none⟩

/-- `Message::assistant`. -/
def Message.mkAssistant (content : String) : Message := ⟨.assistant, content, none⟩

/-- `Message::tool`: the rendered content and the structured result. -/
def Message.mkTool (tool : String) (success : Bool) (output : String) : Message :=
  ⟨.tool, "Tool " ++ tool ++ " returned: " ++ output, some ⟨tool, success, output⟩⟩

/-- `ConversationState` (agent.rs). -/
structure ConversationState where
  messages : List Message
  response_id : Option String
  turn_count : Nat
  max_turns : Nat
deriving Repr

/-- `ConversationState::new`. -/
def ConversationState.new (max_turns : Nat) : ConversationState :=
  ⟨[], none, 0, max_turns⟩

/-- `add_user_message`. -/
def ConversationState.add_user_message (st : ConversationState) (content : String) :
    ConversationState :=
  { st with messages := st.messages ++ [Message.mkUser content] }

/-- `add_assistant_message`. -/
def ConversationState.add_assistant_message (st : ConversationState) (content : String) :
    ConversationState :=
  { st with messages := st.messages ++ [Message.mkAssistant content] }

/-- `add_tool_result`. -/
def ConversationState.add_tool_result (st : ConversationState) (tool : String)
    (success : Bool) (output : String) : ConversationState :=
  { st with messages := st.messages ++ [Message.mkTool tool success output] }

/-- `format_for_llm` (agent.rs): role-tagged entries joined by blank
lines. -/
def ConversationState.format_for_llm (st : ConversationState) : String :=
  String.intercalate "\n\n" (st.messages.map fun msg =>
    (match msg.role with
      | .user => "USER"
      | .assistant => "ASSISTANT"
      | .tool => "TOOL_RESULT") ++ ":\n" ++ msg.content)

/-- `AgentConfig` (agent.rs); the `verbose` flag only toggles logging. -/
structure AgentConfig where
  max_turns : Nat
  verbose : Bool
deriving Repr

/-- `AgentConfig::default` (agent.rs): turn ceiling 10. -/
def AgentConfig.default : AgentConfig := ⟨10, false⟩

/-- `call_llm_for_action` (agent.rs): prompt = system prompt, blank line,
formatted transcript; the response text is parsed as an action.  `llm`
stands for the external `call_llm` collaborator (text or typed failure). -/
def call_llm_for_action (llm : String → Except String String) (system_prompt : String)
    (st : ConversationState) : Except String AgentAction := do
  let response ← llm (system_prompt ++ "\n\n" ++ st.format_for_llm)
  parse_agent_action response

/-- `run_agent_loop`'s loop body (agent.rs), with the final conversation
state returned alongside the answer so the specification can observe the
number of tool calls (the source drops the state).  `system_prompt` stands
for the externally loaded prompt file and `exec` for `execute_tool` with
its collaborators fixed. -/
def runAgentLoopAux (llm : String → Except String String) (system_prompt : String)
    (exec : String → Json → Bool × String) (st : ConversationState) :
    Except String (String × ConversationState) :=
  if h : st.turn_count ≥ st.max_turns then
    .ok ("Max turns (" ++ toString st.max_turns ++ ") reached. Last context: " ++
      ((st.messages.getLast?.map Message.content).getD ""), st)
  else
    match call_llm_for_action llm system_prompt st with
    | .error e => .error e
    | .ok action =>
      let st1 : ConversationState := { st with turn_count := st.turn_count + 1 }
      match action with
      | .finalAnswer answer => .ok (answer, st1)
      | .askUser question => .ok ("Need more information: " ++ question, st1)
      | .callTool tool args =>
        let r := exec tool args
        let st2 := st1.add_tool_result tool r.1 r.2
        let st3 := st2.add_assistant_message
          ("Called tool " ++ tool ++ " with args: " ++ args.render)
        runAgentLoopAux llm system_prompt exec st3
termination_by st.max_turns - st.turn_count
decreasing_by
  simp [ConversationState.add_assistant_message, ConversationState.add_tool_result]
  omega

/-- `run_agent_loop` (agent.rs): fresh state seeded with the user query,
then the loop; only the answer string is returned. -/
def run_agent_loop (query : String) (config : AgentConfig)
    (llm : String → Except String String) (system_prompt : String)
    (exec : String → Json → Bool × String) : Except String String :=
  (runAgentLoopAux llm system_prompt exec
    ((ConversationState.new config.max_turns).add_user_message query)).map Prod.fst

/-- Number of tool-role messages in a transcript: each executed tool call
appends exactly one. -/
def toolMsgCount (st : ConversationState) : Nat :=
  (st.messages.filter fun m => m.role == MessageRole.tool).length

theorem toolMsgCount_add_tool (st : ConversationState) (t : String) (s : Bool)
    (o : String) : toolMsgCount (st.add_tool_result t s o) = toolMsgCount st + 1 := by
  simp [toolMsgCount, ConversationState.add_tool_result, Message.mkTool,
    List.filter_append]
  rfl

theorem toolMsgCount_add_assistant (st : ConversationState) (c : String) :
    toolMsgCount (st.add_assistant_message c) = toolMsgCount st := by
  simp [toolMsgCount, ConversationState.add_assistant_message, Message.mkAssistant,
    List.filter_append]
  rfl

theorem toolMsgCount_set_turn (st : ConversationState) (k : Nat) :
    toolMsgCount { st with turn_count := k } = toolMsgCount st := rfl

theorem runAgentLoopAux_always_calltool
    (llm : String → Except String String) (sys : String)
    (exec : String → Json → Bool × String)
    (hllm : ∀ st : ConversationState, ∃ t a,
      call_llm_for_action llm sys st = .ok (.callTool t a)) :
    ∀ (fuel : Nat) (st : ConversationState), st.max_turns - st.turn_count = fuel →
      ∃ st2 : ConversationState,
        runAgentLoopAux llm sys exec st =
          .ok ("Max turns (" ++ toString st2.max_turns ++ ") reached. Last context: " ++
            ((st2.messages.getLast?.map Message.content).getD ""), st2) ∧
        st2.max_turns = st.max_turns ∧
        toolMsgCount st2 = toolMsgCount st + (st.max_turns - st.turn_count) := by
  intro fuel
  induction fuel with
  | zero =>
    intro st hf
    have hge : st.turn_count ≥ st.max_turns := by omega
    refine ⟨st, ?_, rfl, by omega⟩
    rw [runAgentLoopAux]
    rw [dif_pos hge]
  | succ k ih =>
    intro st hf
    have hlt : ¬ (st.turn_count ≥ st.max_turns) := by omega
    obtain ⟨t, a, hcall⟩ := hllm st
    have hstep : runAgentLoopAux llm sys exec st =
        runAgentLoopAux llm sys exec
          ((({ st with turn_count := st.turn_count + 1
            } : ConversationState).add_tool_result t (exec t a).1 (exec t a).2
            ).add_assistant_message
            ("Called tool " ++ t ++ " with args: " ++ a.render)) := by
      rw [runAgentLoopAux]
      rw [dif_neg hlt, hcall]
    obtain ⟨st2, h1, h2, h3⟩ := ih
      ((({ st with turn_count := st.turn_count + 1
        } : ConversationState).add_tool_result t (exec t a).1 (exec t a).2
        ).add_assistant_message ("Called tool " ++ t ++ " with args: " ++ a.render))
      (by
        simp [ConversationState.add_assistant_message, ConversationState.add_tool_result]
        omega)
    refine ⟨st2, by rw [hstep]; exact h1, ?_, ?_⟩
    · rw [h2]
      simp [ConversationState.add_assistant_message, ConversationState.add_tool_result]
    · rw [h3, toolMsgCount_add_assistant, toolMsgCount_add_tool, toolMsgCount_set_turn]
      simp only [ConversationState.add_assistant_message,
        ConversationState.add_tool_result]
      omega

/-- C4: for every turn ceiling N and every LLM client whose parsed action is
always a `CallTool`, the agent loop executes exactly N tool calls (N
tool-role transcript entries, never an (N+1)-th) and then terminates with
the max-turns message carrying the last transcript entry, because the
`turn_count >= max_turns` check precedes each new action request; the
default configuration's `max_turns` is 10. -/
theorem c4_agent_loop_turn_bound :
    (∀ (N : Nat) (query sys : String) (llm : String → Except String String)
        (exec : String → Json → Bool × String),
      (∀ st : ConversationState, ∃ t a,
        call_llm_for_action llm sys st = .ok (.callTool t a)) →
      ∃ st2 : ConversationState,
        runAgentLoopAux llm sys exec
            ((ConversationState.new N).add_user_message query) =
          .ok ("Max turns (" ++ toString N ++ ") reached. Last context: " ++
            ((st2.messages.getLast?.map Message.content).getD ""), st2) ∧
        toolMsgCount st2 = N ∧
        run_agent_loop query ⟨N, false⟩ llm sys exec =
          .ok ("Max turns (" ++ toString N ++ ") reached. Last context: " ++
            ((st2.messages.getLast?.map Message.content).getD ""))) ∧
    AgentConfig.default.max_turns = 10 := by
  refine ⟨?_, rfl⟩
  intro N query sys llm exec hllm
  obtain ⟨st2, h1, h2, h3⟩ := runAgentLoopAux_always_calltool llm sys exec hllm N
    ((ConversationState.new N).add_user_message query) rfl
  have hmax : st2.max_turns = N := h2
  have hcount : toolMsgCount st2 = N := by
    rw [h3]
    rw [show toolMsgCount ((ConversationState.new N).add_user_message query) = 0 from rfl]
    rw [show ((ConversationState.new N).add_user_message query).max_turns = N from rfl]
    rw [show ((ConversationState.new N).add_user_message query).turn_count = 0 from rfl]
    omega
  rw [hmax] at h1
  refine ⟨st2, h1, hcount, ?_⟩
  rw [run_agent_loop, h1]
  rfl

/-- C4 witness: the theorem applied to N = 3 with a client that always
returns the same `call_tool` JSON. -/
theorem c4_agent_loop_turn_bound_witness :
    (∀ st : ConversationState, ∃ t a,
      call_llm_for_action
        (fun _ => .ok "\x7b\"action\":\"call_tool\",\"tool\":\"ping\",\"args\":\x7b\x7d\x7d")
        "sys" st = .ok (.callTool t a)) ∧
    ∃ st2 : ConversationState,
      runAgentLoopAux
          (fun _ => .ok "\x7b\"action\":\"call_tool\",\"tool\":\"ping\",\"args\":\x7b\x7d\x7d")
          "sys" (fun _ _ => (true, "out"))
          ((ConversationState.new 3).add_user_message "q") =
        .ok ("Max turns (" ++ toString 3 ++ ") reached. Last context: " ++
          ((st2.messages.getLast?.map Message.content).getD ""), st2) ∧
      toolMsgCount st2 = 3 ∧
      run_agent_loop "q" ⟨3, false⟩
          (fun _ => .ok "\x7b\"action\":\"call_tool\",\"tool\":\"ping\",\"args\":\x7b\x7d\x7d")
          "sys" (fun _ _ => (true, "out")) =
        .ok ("Max turns (" ++ toString 3 ++ ") reached. Last context: " ++
          ((st2.messages.getLast?.map Message.content).getD "")) :=
  ⟨fun st => ⟨"ping", Json.obj [], rfl⟩,
    c4_agent_loop_turn_bound.1 3 "q" "sys"
      (fun _ => .ok "\x7b\"action\":\"call_tool\",\"tool\":\"ping\",\"args\":\x7b\x7d\x7d")
      (fun _ _ => (true, "out"))
      (fun st => ⟨"ping", Json.obj [], rfl⟩)⟩

end RouterModel
